import Mathlib

/-!
# Migration planner of the Keycloak operator

Shallow embedding of `pkg/controller/keycloak/keycloak_migrations.go`.

Go pointers to workload objects are addresses into an explicit heap of
StatefulSets, so that two actions (or an action and the current state) that
share one object are represented faithfully.  `Migrate` mutates the custom
resource and the heap in place; here both are threaded through and returned.
A run-time failure of the Go code (indexing `Containers[0]` of an empty
slice, dereferencing a nil workload) is the result `none`.
The wall clock read by `time.Now()` is an explicit argument.
References held by actions are non-nil, as are `cr` and `currentState`.
-/

namespace KeycloakMigrations

/-- Constants of the packages `model` and `common` read by the migrator.
Their declarations lie outside the embedded file, so they are arguments. -/
structure Consts where
  KeycloakImage : String
  RHSSOImage : String
  PostgresqlImage : String
  KeycloakDeploymentName : String
  RHSSOProfile : String
  deriving DecidableEq, Repr

/-- The fields of `v1alpha1.KeycloakRelatedImages` that the migrator reads. -/
structure KeycloakRelatedImages where
  Keycloak : String
  RHSSO : String
  Postgresql : String
  deriving DecidableEq, Repr

/-- Go type `v1alpha1.BackupConfig`. -/
structure BackupConfig where
  Enabled : Bool
  deriving DecidableEq, Repr

/-- Go type `v1alpha1.MigrateConfig`. -/
structure MigrateConfig where
  Backups : BackupConfig
  deriving DecidableEq, Repr

/-- The fields of `v1alpha1.KeycloakSpec` that the migrator reads. -/
structure KeycloakSpec where
  Profile : String
  ImageOverrides : KeycloakRelatedImages
  Migrations : MigrateConfig
  deriving DecidableEq, Repr

/-- The custom resource `v1alpha1.Keycloak`: object metadata and spec. -/
structure Keycloak where
  Namespace : String
  Name : String
  Spec : KeycloakSpec
  deriving DecidableEq, Repr

/-- The custom resource `v1alpha1.KeycloakBackup`, as far as it is filled in here. -/
structure KeycloakBackup where
  Namespace : String
  Name : String
  deriving DecidableEq, Repr

/-- One entry of `Spec.Template.Spec.Containers`. -/
structure Container where
  Image : String
  deriving DecidableEq, Repr

/-- A `v13.StatefulSet`: `ObjectMeta.Name`, `Spec.Replicas` (a nilable
`*int32`) and `Spec.Template.Spec.Containers`. -/
structure StatefulSet where
  Name : String
  Replicas : Option Int
  Containers : List Container
  deriving DecidableEq, Repr

/-- Address of a StatefulSet object. -/
abbrev Ptr := Nat

/-- The StatefulSet objects reachable through pointers. -/
abbrev Heap := Ptr → StatefulSet

/-- Go type `common.ClusterState`: both workloads are nilable pointers. -/
structure ClusterState where
  KeycloakDeployment : Option Ptr
  PostgresqlDeployment : Option Ptr
  deriving DecidableEq, Repr

/-- The dynamic value held by the `Ref` field of a generic action.
A `*v13.StatefulSet` is an address into the heap.  The two backup objects
stand for the results of `model.PostgresqlBackup(backupCr, cr)` and
`model.PostgresqlBackupPersistentVolumeClaim(backupCr)`, whose bodies lie
outside the embedded file: they are kept symbolic and record the arguments
of the call (for `cr`, its value at the moment of the call).  Any other
object kind (a Service, a Route, ...) is `other`. -/
inductive Ref where
  | statefulSet (p : Ptr)
  | postgresqlBackup (backupCr : KeycloakBackup) (cr : Keycloak)
  | postgresqlBackupPersistentVolumeClaim (backupCr : KeycloakBackup)
  | other (kind : String) (name : String)
  deriving DecidableEq, Repr

/-- An element of the desired state: `common.GenericUpdateAction` or
`common.GenericCreateAction`, each with its `Ref` and `Msg`. -/
inductive ClusterAction where
  | GenericUpdateAction (ref : Ref) (msg : String)
  | GenericCreateAction (ref : Ref) (msg : String)
  deriving DecidableEq, Repr

/-- Go type `common.DesiredClusterState`, a slice of actions. -/
abbrev DesiredClusterState := List ClusterAction

/-- The reading of the wall clock, in the fields of the local time zone. -/
structure Time where
  Year : Nat
  Month : Nat
  Day : Nat
  Hour : Nat
  Minute : Nat
  Second : Nat
  Nanosecond : Nat
  deriving DecidableEq, Repr

/-- Decimal digits of `n`, padded with zeros on the left to `width`. -/
def zeroPad (width n : Nat) : String :=
  let ds := Nat.toDigits 10 n
  String.mk (List.replicate (width - ds.length) '0' ++ ds)

/-- The Go call `t.Format("20060102-150405")`. -/
def Time.format (t : Time) : String :=
  zeroPad 4 t.Year ++ zeroPad 2 t.Month ++ zeroPad 2 t.Day ++ "-" ++
    zeroPad 2 t.Hour ++ zeroPad 2 t.Minute ++ zeroPad 2 t.Second

/-- The expression `d.Spec.Template.Spec.Containers[0].Image`; `none` when
the index is out of range. -/
def containerImage (d : StatefulSet) : Option String :=
  match d.Containers with
  | [] => none
  | c :: _ => some c.Image

/-- The assignment `cr.Spec.ImageOverrides.Postgresql = image`. -/
def setPostgresqlOverride (cr : Keycloak) (image : String) : Keycloak :=
  { cr with Spec := { cr.Spec with
      ImageOverrides := { cr.Spec.ImageOverrides with Postgresql := image } } }

/-- The assignment `deployment.Spec.Replicas = &[]int32{1}[0]` on the object at `p`. -/
def setReplicasOne (heap : Heap) (p : Ptr) : Heap :=
  Function.update heap p { heap p with Replicas := some 1 }

/-- The desired image computed at the head of `Migrate` (lines 27 to 37),
the one that appears in its log line. -/
def desiredKeycloakImage (m : Consts) (cr : Keycloak) : String :=
  let desiredImage := m.KeycloakImage
  let desiredImage :=
    if cr.Spec.ImageOverrides.Keycloak ≠ "" then cr.Spec.ImageOverrides.Keycloak
    else desiredImage
  if cr.Spec.Profile = m.RHSSOProfile then
    let desiredImage := m.RHSSOImage
    if cr.Spec.ImageOverrides.RHSSO ≠ "" then cr.Spec.ImageOverrides.RHSSO
    else desiredImage
  else desiredImage

/-- Go function `needsMigration`. -/
def needsMigration (m : Consts) (heap : Heap) (cr : Keycloak)
    (currentState : ClusterState) : Option Bool :=
  match currentState.KeycloakDeployment with
  | none => some false
  | some p =>
    match containerImage (heap p) with
    | none => none
    | some currentImage =>
      let desiredImage := m.KeycloakImage
      let desiredImage :=
        if cr.Spec.ImageOverrides.Keycloak ≠ "" then cr.Spec.ImageOverrides.Keycloak
        else desiredImage
      let desiredImage :=
        if cr.Spec.Profile = m.RHSSOProfile then
          let desiredImage := m.RHSSOImage
          if cr.Spec.ImageOverrides.RHSSO ≠ "" then cr.Spec.ImageOverrides.RHSSO
          else desiredImage
        else desiredImage
      some (decide (desiredImage ≠ currentImage))

/-- Go function `findDeployment`: the object of the first update action whose
`Ref` is a StatefulSet named `model.KeycloakDeploymentName`. -/
def findDeployment (m : Consts) (heap : Heap) : DesiredClusterState → Option Ptr
  | [] => none
  | ClusterAction.GenericUpdateAction (Ref.statefulSet p) _ :: rest =>
    if (heap p).Name = m.KeycloakDeploymentName then some p
    else findDeployment m heap rest
  | _ :: rest => findDeployment m heap rest

/-- Go function `postgresqlNeedsMigration`. -/
def postgresqlNeedsMigration (m : Consts) (heap : Heap) (cr : Keycloak)
    (currentState : ClusterState) : Option Bool :=
  match currentState.PostgresqlDeployment with
  | none => some false
  | some p =>
    match containerImage (heap p) with
    | none => none
    | some currentImage =>
      let desiredImage := m.PostgresqlImage
      let desiredImage :=
        if cr.Spec.ImageOverrides.Postgresql ≠ "" then cr.Spec.ImageOverrides.Postgresql
        else desiredImage
      some (decide (desiredImage ≠ currentImage))

/-- Modelled from the spec: `DesiredClusterState.AddAction` of package
`common`, which appends the action and preserves all prior entries. -/
def AddAction (desiredState : DesiredClusterState) (action : ClusterAction) :
    DesiredClusterState :=
  desiredState ++ [action]

/-- The `KeycloakBackup` built at the head of `oneTimeLocalDatabaseBackup`. -/
def backupCrOf (now : Time) (cr : Keycloak) : KeycloakBackup :=
  { Namespace := cr.Namespace, Name := "migration-backup-" ++ now.format }

/-- Go function `oneTimeLocalDatabaseBackup`; the second component is its log line. -/
def oneTimeLocalDatabaseBackup (now : Time) (cr : Keycloak)
    (desiredState : DesiredClusterState) : DesiredClusterState × List String :=
  let backupCr := backupCrOf now cr
  let backupAction := ClusterAction.GenericCreateAction
    (Ref.postgresqlBackup backupCr cr) "Create Local Backup job"
  let volumeClaimAction := ClusterAction.GenericCreateAction
    (Ref.postgresqlBackupPersistentVolumeClaim backupCr)
    "Create Local Backup Persistent Volume Claim"
  let desiredState := AddAction desiredState backupAction
  let desiredState := AddAction desiredState volumeClaimAction
  (desiredState,
    ["Ready to perform migration OnetimeLocalBackup with name '" ++ backupCr.Name ++ "'"])

/-- The read `currentState.PostgresqlDeployment.Spec.Template.Spec.Containers[0].Image`. -/
def postgresqlCurrentImage (heap : Heap) (currentState : ClusterState) : Option String :=
  match currentState.PostgresqlDeployment with
  | none => none
  | some p => containerImage (heap p)

/-- The read `currentState.KeycloakDeployment.Spec.Template.Spec.Containers[0].Image`. -/
def keycloakCurrentImage (heap : Heap) (currentState : ClusterState) : Option String :=
  match currentState.KeycloakDeployment with
  | none => none
  | some p => containerImage (heap p)

/-- What a call of `Migrate` leaves behind: the custom resource and the heap
after its in-place writes, the two returned values, and the lines logged. -/
structure MigrateResult where
  cr : Keycloak
  heap : Heap
  desiredState : DesiredClusterState
  err : Option String
  log : List String

/-- Go method `DefaultMigrator.Migrate`. -/
def Migrate (m : Consts) (now : Time) (cr : Keycloak) (currentState : ClusterState)
    (heap : Heap) (desiredState : DesiredClusterState) : Option MigrateResult :=
  match needsMigration m heap cr currentState with
  | none => none
  | some true =>
    let desiredImage := desiredKeycloakImage m cr
    match keycloakCurrentImage heap currentState with
    | none => none
    | some currentImage =>
      let log1 := ["Performing migration from '" ++ currentImage ++ "' to '" ++
        desiredImage ++ "'"]
      let deployment := findDeployment m heap desiredState
      let heap1 := match deployment with
        | some p => setReplicasOne heap p
        | none => heap
      let log2 := match deployment with
        | some _ => log1 ++ ["Number of replicas decreased to 1"]
        | none => log1
      if cr.Spec.Migrations.Backups.Enabled = true then
        match postgresqlNeedsMigration m heap1 cr currentState with
        | none => none
        | some true =>
          match postgresqlCurrentImage heap1 currentState with
          | none => none
          | some image =>
            let cr1 := setPostgresqlOverride cr image
            let out := oneTimeLocalDatabaseBackup now cr1 desiredState
            some ⟨cr1, heap1, out.1, none, log2 ++ out.2⟩
        | some false =>
          let out := oneTimeLocalDatabaseBackup now cr desiredState
          some ⟨cr, heap1, out.1, none, log2 ++ out.2⟩
      else
        some ⟨cr, heap1, desiredState, none, log2⟩
  | some false =>
    match postgresqlNeedsMigration m heap cr currentState with
    | none => none
    | some true =>
      if cr.Spec.Migrations.Backups.Enabled = true then
        match postgresqlCurrentImage heap currentState with
        | none => none
        | some image =>
          let cr1 := setPostgresqlOverride cr image
          let out := oneTimeLocalDatabaseBackup now cr1 desiredState
          some ⟨cr1, heap, out.1, none, out.2⟩
      else
        some ⟨cr, heap, desiredState, none, []⟩
    | some false => some ⟨cr, heap, desiredState, none, []⟩

/-- The desired database image computed in `postgresqlNeedsMigration`
(lines 104 to 107): the override of the spec when it is not empty, the
default image otherwise. -/
def desiredPostgresqlImage (m : Consts) (cr : Keycloak) : String :=
  let desiredImage := m.PostgresqlImage
  if cr.Spec.ImageOverrides.Postgresql ≠ "" then cr.Spec.ImageOverrides.Postgresql
  else desiredImage

/-- A workload pointer is nil or points to an object with a first container. -/
def hasContainer (heap : Heap) : Option Ptr → Bool
  | none => true
  | some p => !(heap p).Containers.isEmpty

/-- Every workload present in the current state has a first container. -/
def wellFormed (heap : Heap) (currentState : ClusterState) : Bool :=
  hasContainer heap currentState.KeycloakDeployment &&
    hasContainer heap currentState.PostgresqlDeployment

/-- The action appended first by `oneTimeLocalDatabaseBackup`. -/
def backupJobAction (now : Time) (cr : Keycloak) : ClusterAction :=
  ClusterAction.GenericCreateAction (Ref.postgresqlBackup (backupCrOf now cr) cr)
    "Create Local Backup job"

/-- The action appended second by `oneTimeLocalDatabaseBackup`. -/
def volumeClaimAction (now : Time) (cr : Keycloak) : ClusterAction :=
  ClusterAction.GenericCreateAction
    (Ref.postgresqlBackupPersistentVolumeClaim (backupCrOf now cr))
    "Create Local Backup Persistent Volume Claim"

/-- The heap after the scale-down step of `Migrate` (lines 40 to 44). -/
def scaledDown (m : Consts) (heap : Heap) (desiredState : DesiredClusterState) : Heap :=
  match findDeployment m heap desiredState with
  | some p => setReplicasOne heap p
  | none => heap

/-- The test of `findDeployment` on one action: an update action whose `Ref`
is a StatefulSet named `model.KeycloakDeploymentName`. -/
def targetsDeployment (m : Consts) (heap : Heap) : ClusterAction → Bool
  | ClusterAction.GenericUpdateAction (Ref.statefulSet p) _ =>
    decide ((heap p).Name = m.KeycloakDeploymentName)
  | _ => false

/-- The fields of a clock reading are in their calendar ranges. -/
def Time.valid (t : Time) : Bool :=
  decide (1 ≤ t.Month ∧ t.Month ≤ 12 ∧ 1 ≤ t.Day ∧ t.Day ≤ 31 ∧ t.Hour < 24 ∧
    t.Minute < 60 ∧ t.Second < 60 ∧ t.Nanosecond < 1000000000)

/-- Two clock readings of one time zone fall within the same second. -/
def Time.sameSecond (a b : Time) : Bool :=
  decide (a.Year = b.Year ∧ a.Month = b.Month ∧ a.Day = b.Day ∧ a.Hour = b.Hour ∧
    a.Minute = b.Minute ∧ a.Second = b.Second)

/-- The number written by a string of decimal digits. -/
def digitsValue (cs : List Char) : Nat :=
  cs.foldl (fun acc c => 10 * acc + (c.toNat - 48)) 0

/-! ## Sample data used by the worked instances -/

/-- Sample values of the constants. -/
def sampleConsts : Consts :=
  { KeycloakImage := "quay.io/keycloak/keycloak:9.0.0"
    RHSSOImage := "registry.access.redhat.com/redhat-sso-7/sso73-openshift:1.0-15"
    PostgresqlImage := "postgres:11.5"
    KeycloakDeploymentName := "keycloak"
    RHSSOProfile := "RHSSO" }

/-- A clock reading. -/
def sampleTime : Time :=
  { Year := 2020, Month := 3, Day := 9, Hour := 14, Minute := 5, Second := 7,
    Nanosecond := 250000000 }

/-- A later reading within the same second as `sampleTime`. -/
def sampleTimeLater : Time :=
  { sampleTime with Nanosecond := 900000000 }

/-- A reading one second after `sampleTime`. -/
def sampleTimeNext : Time :=
  { sampleTime with Second := 8, Nanosecond := 0 }

/-- The zero value `&v1alpha1.Keycloak{}` of the tests. -/
def emptyCr : Keycloak :=
  { Namespace := "", Name := "",
    Spec := { Profile := "", ImageOverrides := { Keycloak := "", RHSSO := "", Postgresql := "" },
              Migrations := { Backups := { Enabled := false } } } }

/-- The zero value with backups switched on. -/
def backupCr : Keycloak :=
  { emptyCr with Spec := { emptyCr.Spec with Migrations := { Backups := { Enabled := true } } } }

/-- A StatefulSet with one container. -/
def mkSet (name : String) (replicas : Option Int) (image : String) : StatefulSet :=
  { Name := name, Replicas := replicas, Containers := [{ Image := image }] }

/-- A StatefulSet without containers. -/
def emptySet (name : String) : StatefulSet :=
  { Name := name, Replicas := none, Containers := [] }

/-- Backups switched on and the database image overridden, as in the test
`Backup_Happen_With_Enabled_BackupConfig_And_Overrided_Postgresql_Image`. -/
def postgresqlOverrideCr : Keycloak :=
  setPostgresqlOverride backupCr "postgresql:1.0.0"

/-- Backups switched off and the primary image overridden, as in the test
`No_Need_Backup_Without_Enabled_BackupConfig`. -/
def keycloakOverrideCr : Keycloak :=
  { emptyCr with Spec := { emptyCr.Spec with
      ImageOverrides := { Keycloak := "keycloak:1.0.0", RHSSO := "", Postgresql := "" } } }

/-- The RHSSO profile together with an override of the Keycloak image. -/
def rhssoKeycloakOverrideCr : Keycloak :=
  { emptyCr with Spec := { emptyCr.Spec with
      Profile := "RHSSO",
      ImageOverrides := { Keycloak := "keycloak:1.0.0", RHSSO := "", Postgresql := "" } } }

/-- Heap with the given objects at addresses 0, 1, 2, ... and a filler elsewhere. -/
def heapOf (objs : List StatefulSet) : Heap :=
  fun p => objs.getD p (emptySet "")

end KeycloakMigrations

namespace KeycloakMigrations

/-! ## Auxiliary facts -/

theorem containerImage_setReplicasOne (heap : Heap) (q p : Ptr) :
    containerImage (setReplicasOne heap q p) = containerImage (heap p) := by
  unfold setReplicasOne
  by_cases h : p = q
  · subst h
    simp [containerImage]
  · rw [Function.update_noteq h]

theorem postgresqlNeedsMigration_setReplicasOne (m : Consts) (heap : Heap) (q : Ptr)
    (cr : Keycloak) (cs : ClusterState) :
    postgresqlNeedsMigration m (setReplicasOne heap q) cr cs =
      postgresqlNeedsMigration m heap cr cs := by
  unfold postgresqlNeedsMigration
  cases cs.PostgresqlDeployment with
  | none => rfl
  | some p => simp only [containerImage_setReplicasOne]

theorem postgresqlCurrentImage_setReplicasOne (heap : Heap) (q : Ptr) (cs : ClusterState) :
    postgresqlCurrentImage (setReplicasOne heap q) cs = postgresqlCurrentImage heap cs := by
  unfold postgresqlCurrentImage
  cases cs.PostgresqlDeployment with
  | none => rfl
  | some p => simp only [containerImage_setReplicasOne]

theorem needsMigration_of_image (m : Consts) (heap : Heap) (cr : Keycloak)
    (cs : ClusterState) (img : String) (h : keycloakCurrentImage heap cs = some img) :
    needsMigration m heap cr cs = some (decide (desiredKeycloakImage m cr ≠ img)) := by
  unfold keycloakCurrentImage at h
  unfold needsMigration desiredKeycloakImage
  cases hk : cs.KeycloakDeployment with
  | none => simp [hk] at h
  | some p =>
    simp only [hk] at h
    simp only [h]

theorem needsMigration_of_absent (m : Consts) (heap : Heap) (cr : Keycloak)
    (cs : ClusterState) (h : cs.KeycloakDeployment = none) :
    needsMigration m heap cr cs = some false := by
  unfold needsMigration
  simp only [h]

theorem postgresqlNeedsMigration_of_image (m : Consts) (heap : Heap) (cr : Keycloak)
    (cs : ClusterState) (img : String) (h : postgresqlCurrentImage heap cs = some img) :
    postgresqlNeedsMigration m heap cr cs =
      some (decide (desiredPostgresqlImage m cr ≠ img)) := by
  unfold postgresqlCurrentImage at h
  unfold postgresqlNeedsMigration desiredPostgresqlImage
  cases hk : cs.PostgresqlDeployment with
  | none => simp [hk] at h
  | some p =>
    simp only [hk] at h
    simp only [h]

theorem postgresqlNeedsMigration_of_absent (m : Consts) (heap : Heap) (cr : Keycloak)
    (cs : ClusterState) (h : cs.PostgresqlDeployment = none) :
    postgresqlNeedsMigration m heap cr cs = some false := by
  unfold postgresqlNeedsMigration
  simp only [h]

/-- When the detector answers, the image it read is available. -/
theorem keycloakCurrentImage_of_needsMigration_true (m : Consts) (heap : Heap)
    (cr : Keycloak) (cs : ClusterState) (h : needsMigration m heap cr cs = some true) :
    ∃ img, keycloakCurrentImage heap cs = some img ∧ desiredKeycloakImage m cr ≠ img := by
  unfold needsMigration at h
  unfold keycloakCurrentImage desiredKeycloakImage
  cases hk : cs.KeycloakDeployment with
  | none => simp [hk] at h
  | some p =>
    simp only [hk] at h ⊢
    cases hc : containerImage (heap p) with
    | none => simp [hc] at h
    | some img =>
      simp only [hc] at h
      exact ⟨img, rfl, by simpa using h⟩

theorem postgresqlCurrentImage_of_needsMigration_true (m : Consts) (heap : Heap)
    (cr : Keycloak) (cs : ClusterState)
    (h : postgresqlNeedsMigration m heap cr cs = some true) :
    ∃ img, postgresqlCurrentImage heap cs = some img ∧ desiredPostgresqlImage m cr ≠ img := by
  unfold postgresqlNeedsMigration at h
  unfold postgresqlCurrentImage desiredPostgresqlImage
  cases hk : cs.PostgresqlDeployment with
  | none => simp [hk] at h
  | some p =>
    simp only [hk] at h ⊢
    cases hc : containerImage (heap p) with
    | none => simp [hc] at h
    | some img =>
      simp only [hc] at h
      exact ⟨img, rfl, by simpa using h⟩

theorem oneTimeLocalDatabaseBackup_fst (now : Time) (cr : Keycloak)
    (ds : DesiredClusterState) :
    (oneTimeLocalDatabaseBackup now cr ds).1 =
      ds ++ [backupJobAction now cr, volumeClaimAction now cr] := by
  simp [oneTimeLocalDatabaseBackup, AddAction, backupJobAction, volumeClaimAction]

/-! ## The branches of `Migrate` -/

theorem Migrate_primary_noBackup (m : Consts) (now : Time) (cr : Keycloak)
    (cs : ClusterState) (heap : Heap) (ds : DesiredClusterState)
    (hN : needsMigration m heap cr cs = some true)
    (hE : cr.Spec.Migrations.Backups.Enabled = false) :
    ∃ log, Migrate m now cr cs heap ds = some ⟨cr, scaledDown m heap ds, ds, none, log⟩ := by
  obtain ⟨img, himg, _⟩ := keycloakCurrentImage_of_needsMigration_true m heap cr cs hN
  unfold Migrate scaledDown
  simp only [hN, himg, hE]
  cases findDeployment m heap ds <;> exact ⟨_, rfl⟩

theorem Migrate_primary_pinned (m : Consts) (now : Time) (cr : Keycloak)
    (cs : ClusterState) (heap : Heap) (ds : DesiredClusterState)
    (hN : needsMigration m heap cr cs = some true)
    (hE : cr.Spec.Migrations.Backups.Enabled = true)
    (hP : postgresqlNeedsMigration m heap cr cs = some true) :
    ∃ img log, postgresqlCurrentImage heap cs = some img ∧
      Migrate m now cr cs heap ds =
        some ⟨setPostgresqlOverride cr img, scaledDown m heap ds,
          ds ++ [backupJobAction now (setPostgresqlOverride cr img),
                 volumeClaimAction now (setPostgresqlOverride cr img)], none, log⟩ := by
  obtain ⟨img, himg, _⟩ := keycloakCurrentImage_of_needsMigration_true m heap cr cs hN
  obtain ⟨pimg, hpimg, _⟩ := postgresqlCurrentImage_of_needsMigration_true m heap cr cs hP
  unfold Migrate scaledDown
  simp only [hN, himg, hE]
  cases findDeployment m heap ds with
  | none =>
    simp only [hP, hpimg, if_true, oneTimeLocalDatabaseBackup_fst]
    exact ⟨pimg, _, rfl, rfl⟩
  | some p =>
    simp only [postgresqlNeedsMigration_setReplicasOne,
      postgresqlCurrentImage_setReplicasOne, hP, hpimg, if_true,
      oneTimeLocalDatabaseBackup_fst]
    exact ⟨pimg, _, rfl, rfl⟩

theorem Migrate_primary_backup (m : Consts) (now : Time) (cr : Keycloak)
    (cs : ClusterState) (heap : Heap) (ds : DesiredClusterState)
    (hN : needsMigration m heap cr cs = some true)
    (hE : cr.Spec.Migrations.Backups.Enabled = true)
    (hP : postgresqlNeedsMigration m heap cr cs = some false) :
    ∃ log, Migrate m now cr cs heap ds =
      some ⟨cr, scaledDown m heap ds,
        ds ++ [backupJobAction now cr, volumeClaimAction now cr], none, log⟩ := by
  obtain ⟨img, himg, _⟩ := keycloakCurrentImage_of_needsMigration_true m heap cr cs hN
  unfold Migrate scaledDown
  simp only [hN, himg, hE]
  cases findDeployment m heap ds with
  | none =>
    simp only [hP, if_true, oneTimeLocalDatabaseBackup_fst]
    exact ⟨_, rfl⟩
  | some p =>
    simp only [postgresqlNeedsMigration_setReplicasOne, hP, if_true,
      oneTimeLocalDatabaseBackup_fst]
    exact ⟨_, rfl⟩

theorem Migrate_primary_fails (m : Consts) (now : Time) (cr : Keycloak)
    (cs : ClusterState) (heap : Heap) (ds : DesiredClusterState)
    (hN : needsMigration m heap cr cs = some true)
    (hE : cr.Spec.Migrations.Backups.Enabled = true)
    (hP : postgresqlNeedsMigration m heap cr cs = none) :
    Migrate m now cr cs heap ds = none := by
  obtain ⟨img, himg, _⟩ := keycloakCurrentImage_of_needsMigration_true m heap cr cs hN
  unfold Migrate
  simp only [hN, himg, hE]
  cases findDeployment m heap ds with
  | none => simp only [hP, if_true]
  | some p => simp only [postgresqlNeedsMigration_setReplicasOne, hP, if_true]

theorem Migrate_database_pinned (m : Consts) (now : Time) (cr : Keycloak)
    (cs : ClusterState) (heap : Heap) (ds : DesiredClusterState)
    (hN : needsMigration m heap cr cs = some false)
    (hE : cr.Spec.Migrations.Backups.Enabled = true)
    (hP : postgresqlNeedsMigration m heap cr cs = some true) :
    ∃ img log, postgresqlCurrentImage heap cs = some img ∧
      Migrate m now cr cs heap ds =
        some ⟨setPostgresqlOverride cr img, heap,
          ds ++ [backupJobAction now (setPostgresqlOverride cr img),
                 volumeClaimAction now (setPostgresqlOverride cr img)], none, log⟩ := by
  obtain ⟨pimg, hpimg, _⟩ := postgresqlCurrentImage_of_needsMigration_true m heap cr cs hP
  unfold Migrate
  simp only [hN, hP, hE, hpimg, if_true, oneTimeLocalDatabaseBackup_fst]
  exact ⟨pimg, _, rfl, rfl⟩

theorem Migrate_database_noBackup (m : Consts) (now : Time) (cr : Keycloak)
    (cs : ClusterState) (heap : Heap) (ds : DesiredClusterState)
    (hN : needsMigration m heap cr cs = some false)
    (hE : cr.Spec.Migrations.Backups.Enabled = false)
    (hP : postgresqlNeedsMigration m heap cr cs = some true) :
    Migrate m now cr cs heap ds = some ⟨cr, heap, ds, none, []⟩ := by
  unfold Migrate
  simp [hN, hP, hE]

theorem Migrate_converged (m : Consts) (now : Time) (cr : Keycloak)
    (cs : ClusterState) (heap : Heap) (ds : DesiredClusterState)
    (hN : needsMigration m heap cr cs = some false)
    (hP : postgresqlNeedsMigration m heap cr cs = some false) :
    Migrate m now cr cs heap ds = some ⟨cr, heap, ds, none, []⟩ := by
  unfold Migrate
  simp only [hN, hP]

theorem Migrate_detector_fails (m : Consts) (now : Time) (cr : Keycloak)
    (cs : ClusterState) (heap : Heap) (ds : DesiredClusterState)
    (hN : needsMigration m heap cr cs = none) :
    Migrate m now cr cs heap ds = none := by
  unfold Migrate
  simp only [hN]

theorem Migrate_database_fails (m : Consts) (now : Time) (cr : Keycloak)
    (cs : ClusterState) (heap : Heap) (ds : DesiredClusterState)
    (hN : needsMigration m heap cr cs = some false)
    (hP : postgresqlNeedsMigration m heap cr cs = none) :
    Migrate m now cr cs heap ds = none := by
  unfold Migrate
  simp only [hN, hP]

/-- Every way in which `Migrate` can return, read off the branch equations. -/
theorem Migrate_inv (m : Consts) (now : Time) (cr : Keycloak) (cs : ClusterState)
    (heap : Heap) (ds : DesiredClusterState) (r : MigrateResult)
    (h : Migrate m now cr cs heap ds = some r) :
    r.err = none ∧
    ((needsMigration m heap cr cs = some true ∧ r.heap = scaledDown m heap ds) ∨
      (needsMigration m heap cr cs = some false ∧ r.heap = heap)) ∧
    ((r.cr = cr ∧ r.desiredState = ds ∧
        (cr.Spec.Migrations.Backups.Enabled = false ∨
          (needsMigration m heap cr cs = some false ∧
            postgresqlNeedsMigration m heap cr cs = some false))) ∨
      (cr.Spec.Migrations.Backups.Enabled = true ∧
        needsMigration m heap cr cs = some true ∧
        postgresqlNeedsMigration m heap cr cs = some false ∧ r.cr = cr ∧
        r.desiredState = ds ++ [backupJobAction now cr, volumeClaimAction now cr]) ∨
      (cr.Spec.Migrations.Backups.Enabled = true ∧
        postgresqlNeedsMigration m heap cr cs = some true ∧
        ∃ img, postgresqlCurrentImage heap cs = some img ∧
          r.cr = setPostgresqlOverride cr img ∧
          r.desiredState = ds ++ [backupJobAction now (setPostgresqlOverride cr img),
            volumeClaimAction now (setPostgresqlOverride cr img)])) := by
  cases hN : needsMigration m heap cr cs with
  | none => rw [Migrate_detector_fails m now cr cs heap ds hN] at h; cases h
  | some n =>
    cases n with
    | true =>
      cases hE : cr.Spec.Migrations.Backups.Enabled with
      | false =>
        obtain ⟨log, e⟩ := Migrate_primary_noBackup m now cr cs heap ds hN hE
        rw [e] at h
        cases h
        exact ⟨rfl, Or.inl ⟨rfl, rfl⟩, Or.inl ⟨rfl, rfl, Or.inl rfl⟩⟩
      | true =>
        cases hP : postgresqlNeedsMigration m heap cr cs with
        | none => rw [Migrate_primary_fails m now cr cs heap ds hN hE hP] at h; cases h
        | some pn =>
          cases pn with
          | false =>
            obtain ⟨log, e⟩ := Migrate_primary_backup m now cr cs heap ds hN hE hP
            rw [e] at h
            cases h
            exact ⟨rfl, Or.inl ⟨rfl, rfl⟩, Or.inr (Or.inl ⟨rfl, rfl, rfl, rfl, rfl⟩)⟩
          | true =>
            obtain ⟨img, log, hi, e⟩ := Migrate_primary_pinned m now cr cs heap ds hN hE hP
            rw [e] at h
            cases h
            exact ⟨rfl, Or.inl ⟨rfl, rfl⟩, Or.inr (Or.inr ⟨rfl, rfl, img, hi, rfl, rfl⟩)⟩
    | false =>
      cases hP : postgresqlNeedsMigration m heap cr cs with
      | none => rw [Migrate_database_fails m now cr cs heap ds hN hP] at h; cases h
      | some pn =>
        cases pn with
        | false =>
          rw [Migrate_converged m now cr cs heap ds hN hP] at h
          cases h
          exact ⟨rfl, Or.inr ⟨rfl, rfl⟩, Or.inl ⟨rfl, rfl, Or.inr ⟨rfl, rfl⟩⟩⟩
        | true =>
          cases hE : cr.Spec.Migrations.Backups.Enabled with
          | false =>
            rw [Migrate_database_noBackup m now cr cs heap ds hN hE hP] at h
            cases h
            exact ⟨rfl, Or.inr ⟨rfl, rfl⟩, Or.inl ⟨rfl, rfl, Or.inl rfl⟩⟩
          | true =>
            obtain ⟨img, log, hi, e⟩ := Migrate_database_pinned m now cr cs heap ds hN hE hP
            rw [e] at h
            cases h
            exact ⟨rfl, Or.inr ⟨rfl, rfl⟩, Or.inr (Or.inr ⟨rfl, rfl, img, hi, rfl, rfl⟩)⟩

theorem needsMigration_isSome_of_hasContainer (m : Consts) (heap : Heap) (cr : Keycloak)
    (cs : ClusterState) (h : hasContainer heap cs.KeycloakDeployment = true) :
    ∃ b, needsMigration m heap cr cs = some b := by
  unfold needsMigration
  cases hk : cs.KeycloakDeployment with
  | none => exact ⟨false, rfl⟩
  | some p =>
    rw [hk] at h
    cases hc : (heap p).Containers with
    | nil => simp [hasContainer, hc] at h
    | cons c rest =>
      simp only [containerImage, hc]
      exact ⟨_, rfl⟩

theorem postgresqlNeedsMigration_isSome_of_hasContainer (m : Consts) (heap : Heap)
    (cr : Keycloak) (cs : ClusterState)
    (h : hasContainer heap cs.PostgresqlDeployment = true) :
    ∃ b, postgresqlNeedsMigration m heap cr cs = some b := by
  unfold postgresqlNeedsMigration
  cases hk : cs.PostgresqlDeployment with
  | none => exact ⟨false, rfl⟩
  | some p =>
    rw [hk] at h
    cases hc : (heap p).Containers with
    | nil => simp [hasContainer, hc] at h
    | cons c rest =>
      simp only [containerImage, hc]
      exact ⟨_, rfl⟩

/-- On a current state whose present workloads have a first container,
`Migrate` returns. -/
theorem Migrate_returns_of_wellFormed (m : Consts) (now : Time) (cr : Keycloak)
    (cs : ClusterState) (heap : Heap) (ds : DesiredClusterState)
    (hw : wellFormed heap cs = true) :
    ∃ r, Migrate m now cr cs heap ds = some r := by
  unfold wellFormed at hw
  rw [Bool.and_eq_true] at hw
  obtain ⟨n, hN⟩ := needsMigration_isSome_of_hasContainer m heap cr cs hw.1
  obtain ⟨pn, hP⟩ := postgresqlNeedsMigration_isSome_of_hasContainer m heap cr cs hw.2
  cases n with
  | true =>
    cases hE : cr.Spec.Migrations.Backups.Enabled with
    | false =>
      obtain ⟨log, e⟩ := Migrate_primary_noBackup m now cr cs heap ds hN hE
      exact ⟨_, e⟩
    | true =>
      cases pn with
      | false =>
        obtain ⟨log, e⟩ := Migrate_primary_backup m now cr cs heap ds hN hE hP
        exact ⟨_, e⟩
      | true =>
        obtain ⟨img, log, _, e⟩ := Migrate_primary_pinned m now cr cs heap ds hN hE hP
        exact ⟨_, e⟩
  | false =>
    cases pn with
    | false => exact ⟨_, Migrate_converged m now cr cs heap ds hN hP⟩
    | true =>
      cases hE : cr.Spec.Migrations.Backups.Enabled with
      | false => exact ⟨_, Migrate_database_noBackup m now cr cs heap ds hN hE hP⟩
      | true =>
        obtain ⟨img, log, _, e⟩ := Migrate_database_pinned m now cr cs heap ds hN hE hP
        exact ⟨_, e⟩

/-- With backups enabled and one of the two images differing, every result
carries the two backup actions. -/
theorem Migrate_appends_backup_aux (m : Consts) (now : Time) (cr : Keycloak)
    (cs : ClusterState) (heap : Heap) (ds : DesiredClusterState)
    (hE : cr.Spec.Migrations.Backups.Enabled = true)
    (hd : (∃ img, keycloakCurrentImage heap cs = some img ∧
            img ≠ desiredKeycloakImage m cr) ∨
          (∃ img, postgresqlCurrentImage heap cs = some img ∧
            img ≠ desiredPostgresqlImage m cr)) :
    ∀ r, Migrate m now cr cs heap ds = some r →
      r.desiredState = ds ++ [backupJobAction now r.cr, volumeClaimAction now r.cr] := by
  intro r hr
  obtain ⟨_, _, hcase⟩ := Migrate_inv m now cr cs heap ds r hr
  rcases hcase with ⟨_, _, hno⟩ | ⟨_, _, _, hcr, hds⟩ | ⟨_, _, img, _, hcr, hds⟩
  · exfalso
    rcases hno with hno | ⟨hN, hP⟩
    · rw [hE] at hno
      cases hno
    · rcases hd with ⟨img, hi, hne⟩ | ⟨img, hi, hne⟩
      · rw [needsMigration_of_image m heap cr cs img hi] at hN
        simp only [Option.some.injEq, decide_eq_false_iff_not, not_not] at hN
        exact hne hN.symm
      · rw [postgresqlNeedsMigration_of_image m heap cr cs img hi] at hP
        simp only [Option.some.injEq, decide_eq_false_iff_not, not_not] at hP
        exact hne hP.symm
  · rw [hcr]
    exact hds
  · rw [hcr]
    exact hds

/-! ## C1: the backup actions are appended -/

/-- C1 as stated fails: backups are enabled and the database workload runs
`postgres:9.6`, not the desired `postgres:11.5`, but the primary workload is
present with an empty container list, so the first read of `Containers[0]`
fails and `Migrate` returns nothing. -/
theorem Migrate_appends_backup_counterexample :
    backupCr.Spec.Migrations.Backups.Enabled = true ∧
    postgresqlCurrentImage
        (heapOf [emptySet "keycloak", mkSet "keycloak-postgresql" (some 1) "postgres:9.6"])
        ⟨some 0, some 1⟩ = some "postgres:9.6" ∧
    "postgres:9.6" ≠ desiredPostgresqlImage sampleConsts backupCr ∧
    (Migrate sampleConsts sampleTime backupCr ⟨some 0, some 1⟩
        (heapOf [emptySet "keycloak", mkSet "keycloak-postgresql" (some 1) "postgres:9.6"])
        []).isSome = false := by
  decide

/-- C1, amended: with backups enabled, if the primary workload runs an image
other than the resolved desired primary image, or the database workload runs
an image other than the resolved desired database image, then every result of
`Migrate` is the input sequence followed by exactly two create actions, the
backup job first and the volume claim second (both built from the spec as
`Migrate` leaves it), so its length is the input length plus 2; and `Migrate`
does return such a result on every current state whose present workloads
have a first container. -/
theorem Migrate_appends_backup (m : Consts) (now : Time) (cr : Keycloak)
    (cs : ClusterState) (heap : Heap) (ds : DesiredClusterState)
    (hE : cr.Spec.Migrations.Backups.Enabled = true)
    (hd : (∃ img, keycloakCurrentImage heap cs = some img ∧
            img ≠ desiredKeycloakImage m cr) ∨
          (∃ img, postgresqlCurrentImage heap cs = some img ∧
            img ≠ desiredPostgresqlImage m cr)) :
    (∀ r, Migrate m now cr cs heap ds = some r →
      r.desiredState = ds ++ [backupJobAction now r.cr, volumeClaimAction now r.cr] ∧
      r.desiredState.length = ds.length + 2 ∧ ds <+: r.desiredState) ∧
    (wellFormed heap cs = true →
      ∃ r, Migrate m now cr cs heap ds = some r ∧
        r.desiredState = ds ++ [backupJobAction now r.cr, volumeClaimAction now r.cr]) := by
  have key := Migrate_appends_backup_aux m now cr cs heap ds hE hd
  refine ⟨fun r hr => ⟨key r hr, ?_, ?_⟩, fun hw => ?_⟩
  · rw [key r hr]
    simp
  · exact ⟨_, (key r hr).symm⟩
  · obtain ⟨r, hr⟩ := Migrate_returns_of_wellFormed m now cr cs heap ds hw
    exact ⟨r, hr, key r hr⟩

/-- The scenario of the test: backups enabled, database override
`postgresql:1.0.0`, database running the default image, one update action in
the input; the result has three actions. -/
theorem Migrate_appends_backup_witness :
    ∃ r, Migrate sampleConsts sampleTime postgresqlOverrideCr ⟨none, some 0⟩
        (heapOf [mkSet "keycloak-postgresql" (some 1) "postgres:11.5"])
        [ClusterAction.GenericUpdateAction (Ref.statefulSet 0) ""] = some r ∧
      r.desiredState.length = 3 := by
  have h := Migrate_appends_backup sampleConsts sampleTime postgresqlOverrideCr
    ⟨none, some 0⟩ (heapOf [mkSet "keycloak-postgresql" (some 1) "postgres:11.5"])
    [ClusterAction.GenericUpdateAction (Ref.statefulSet 0) ""] (by decide)
    (Or.inr ⟨"postgres:11.5", by decide, by decide⟩)
  obtain ⟨r, hr, _⟩ := h.2 (by decide)
  exact ⟨r, hr, (h.1 r hr).2.1⟩

/-! ## C2: the image the backup is built with -/

/-- C2 as stated fails for the empty image string: the database workload
runs the image `""`, `Migrate` appends the two backup actions and writes `""`
into the override, which reads as "no override", so the effective database
image of the spec is the default `postgres:11.5` and not the running image. -/
theorem Migrate_backup_image_counterexample :
    postgresqlCurrentImage (heapOf [mkSet "keycloak-postgresql" (some 1) ""])
        ⟨none, some 0⟩ = some "" ∧
    (Migrate sampleConsts sampleTime backupCr ⟨none, some 0⟩
        (heapOf [mkSet "keycloak-postgresql" (some 1) ""]) []).map
      (fun r => (r.desiredState.length, r.cr.Spec.ImageOverrides.Postgresql,
        desiredPostgresqlImage sampleConsts r.cr)) = some (2, "", "postgres:11.5") := by
  decide

/-- C2, amended: whenever `Migrate` appends the backup actions and the
database workload is present, that workload has a running image, and if this
image is not the empty string then the effective database image of the spec
as `Migrate` leaves it (the override if not empty, the default otherwise)
equals it; the backup job is built from that very spec. -/
theorem Migrate_backup_image (m : Consts) (now : Time) (cr : Keycloak)
    (cs : ClusterState) (heap : Heap) (ds : DesiredClusterState) (r : MigrateResult)
    (p : Ptr) (hr : Migrate m now cr cs heap ds = some r)
    (happ : r.desiredState ≠ ds) (hp : cs.PostgresqlDeployment = some p) :
    ∃ img, containerImage (heap p) = some img ∧
      (img ≠ "" → desiredPostgresqlImage m r.cr = img) ∧
      r.desiredState = ds ++ [backupJobAction now r.cr, volumeClaimAction now r.cr] := by
  have hcur : postgresqlCurrentImage heap cs = containerImage (heap p) := by
    unfold postgresqlCurrentImage
    simp only [hp]
  obtain ⟨_, _, hcase⟩ := Migrate_inv m now cr cs heap ds r hr
  rcases hcase with ⟨_, hds, _⟩ | ⟨_, _, hP, hcr, hds⟩ | ⟨_, _, img, hi, hcr, hds⟩
  · exact absurd hds happ
  · cases hc : containerImage (heap p) with
    | none =>
      unfold postgresqlNeedsMigration at hP
      simp [hp, hc] at hP
    | some img =>
      rw [postgresqlNeedsMigration_of_image m heap cr cs img (hcur.trans hc)] at hP
      simp only [Option.some.injEq, decide_eq_false_iff_not, not_not] at hP
      refine ⟨img, rfl, fun _ => ?_, ?_⟩
      · rw [hcr]
        exact hP
      · rw [hcr]
        exact hds
  · refine ⟨img, hcur.symm.trans hi, fun hne => ?_, ?_⟩
    · rw [hcr]
      simp [desiredPostgresqlImage, setPostgresqlOverride, hne]
    · rw [hcr]
      exact hds

/-- The scenario of the test with the overridden database image: the running
image `postgres:11.5` becomes the effective database image of the spec. -/
theorem Migrate_backup_image_witness :
    ∃ r, Migrate sampleConsts sampleTime postgresqlOverrideCr ⟨none, some 0⟩
        (heapOf [mkSet "keycloak-postgresql" (some 1) "postgres:11.5"]) [] = some r ∧
      desiredPostgresqlImage sampleConsts postgresqlOverrideCr = "postgresql:1.0.0" ∧
      desiredPostgresqlImage sampleConsts r.cr = "postgres:11.5" := by
  obtain ⟨r, hr⟩ := Migrate_returns_of_wellFormed sampleConsts sampleTime
    postgresqlOverrideCr ⟨none, some 0⟩
    (heapOf [mkSet "keycloak-postgresql" (some 1) "postgres:11.5"]) [] (by decide)
  have hlen : r.desiredState ≠ [] := by
    have h2 := (Migrate_appends_backup_aux sampleConsts sampleTime postgresqlOverrideCr
      ⟨none, some 0⟩ (heapOf [mkSet "keycloak-postgresql" (some 1) "postgres:11.5"]) []
      (by decide) (Or.inr ⟨"postgres:11.5", by decide, by decide⟩)) r hr
    rw [h2]
    simp
  obtain ⟨img, hi, himg, _⟩ := Migrate_backup_image sampleConsts sampleTime
    postgresqlOverrideCr ⟨none, some 0⟩
    (heapOf [mkSet "keycloak-postgresql" (some 1) "postgres:11.5"]) [] r 0 hr hlen rfl
  have e : img = "postgres:11.5" := by
    have : containerImage (heapOf [mkSet "keycloak-postgresql" (some 1) "postgres:11.5"] 0)
        = some "postgres:11.5" := by decide
    rw [this] at hi
    exact (Option.some.inj hi).symm
  subst e
  exact ⟨r, hr, by decide, himg (by decide)⟩

/-! ## C3: the scale-down of the primary workload -/

theorem findDeployment_append (m : Consts) (heap : Heap) (pre post : DesiredClusterState)
    (p : Ptr) (msg : String) (hname : (heap p).Name = m.KeycloakDeploymentName)
    (hfirst : ∀ a ∈ pre, targetsDeployment m heap a = false) :
    findDeployment m heap
      (pre ++ ClusterAction.GenericUpdateAction (Ref.statefulSet p) msg :: post) = some p := by
  induction pre with
  | nil => simp [findDeployment, hname]
  | cons a pre ih =>
    have ha := hfirst a (List.mem_cons_self a pre)
    have ih2 := ih (fun b hb => hfirst b (List.mem_cons_of_mem a hb))
    cases a with
    | GenericCreateAction ref msg2 => simpa [findDeployment] using ih2
    | GenericUpdateAction ref msg2 =>
      cases ref with
      | statefulSet q =>
        simp only [targetsDeployment, decide_eq_false_iff_not] at ha
        simpa [findDeployment, ha] using ih2
      | postgresqlBackup b c => simpa [findDeployment] using ih2
      | postgresqlBackupPersistentVolumeClaim b => simpa [findDeployment] using ih2
      | other k n => simpa [findDeployment] using ih2

/-- C3 as stated fails: two update actions target two distinct StatefulSets
named `keycloak`; the primary workload needs migration; after `Migrate` the
first target has 1 replica and the second still has 3. -/
theorem Migrate_scales_down_counterexample :
    keycloakCurrentImage
        (heapOf [mkSet "keycloak" (some 5) "old_image", mkSet "keycloak" (some 5) "old_image",
          mkSet "keycloak" (some 3) "old_image"]) ⟨some 0, none⟩ = some "old_image" ∧
    "old_image" ≠ desiredKeycloakImage sampleConsts emptyCr ∧
    (Migrate sampleConsts sampleTime emptyCr ⟨some 0, none⟩
        (heapOf [mkSet "keycloak" (some 5) "old_image", mkSet "keycloak" (some 5) "old_image",
          mkSet "keycloak" (some 3) "old_image"])
        [ClusterAction.GenericUpdateAction (Ref.statefulSet 1) "",
         ClusterAction.GenericUpdateAction (Ref.statefulSet 2) ""]).map
      (fun r => (r.desiredState, (r.heap 1).Replicas, (r.heap 2).Name, (r.heap 2).Replicas)) =
      some ([ClusterAction.GenericUpdateAction (Ref.statefulSet 1) "",
             ClusterAction.GenericUpdateAction (Ref.statefulSet 2) ""],
            some 1, "keycloak", some 3) := by
  decide

/-- C3, amended: when the primary workload runs an image other than the
resolved desired primary image, the target of the first update action of the
desired state whose `Ref` is a StatefulSet named `model.KeycloakDeploymentName`
has replica count exactly 1 after `Migrate`, whatever it was before, its name
and containers are kept and the action is still in the returned sequence;
`Migrate` returns on every current state whose present workloads have a
first container. -/
theorem Migrate_scales_down (m : Consts) (now : Time) (cr : Keycloak)
    (cs : ClusterState) (heap : Heap) (ds pre post : DesiredClusterState)
    (p : Ptr) (msg : String)
    (hdiff : ∃ img, keycloakCurrentImage heap cs = some img ∧
      img ≠ desiredKeycloakImage m cr)
    (hds : ds = pre ++ ClusterAction.GenericUpdateAction (Ref.statefulSet p) msg :: post)
    (hname : (heap p).Name = m.KeycloakDeploymentName)
    (hfirst : ∀ a ∈ pre, targetsDeployment m heap a = false) :
    (∀ r, Migrate m now cr cs heap ds = some r →
      (r.heap p).Replicas = some 1 ∧ (r.heap p).Name = m.KeycloakDeploymentName ∧
      (r.heap p).Containers = (heap p).Containers ∧
      ClusterAction.GenericUpdateAction (Ref.statefulSet p) msg ∈ r.desiredState) ∧
    (wellFormed heap cs = true → ∃ r, Migrate m now cr cs heap ds = some r) := by
  refine ⟨fun r hr => ?_, Migrate_returns_of_wellFormed m now cr cs heap ds⟩
  obtain ⟨img, hi, hne⟩ := hdiff
  have hN : needsMigration m heap cr cs = some true := by
    rw [needsMigration_of_image m heap cr cs img hi]
    simp only [Option.some.injEq, decide_eq_true_eq]
    exact fun e => hne e.symm
  have hf : findDeployment m heap ds = some p := by
    rw [hds]
    exact findDeployment_append m heap pre post p msg hname hfirst
  obtain ⟨_, hheap, hcase⟩ := Migrate_inv m now cr cs heap ds r hr
  have hh : r.heap = setReplicasOne heap p := by
    rcases hheap with ⟨_, hh⟩ | ⟨hN2, _⟩
    · rw [hh]
      unfold scaledDown
      simp only [hf]
    · rw [hN] at hN2
      cases hN2
  have hmem : ClusterAction.GenericUpdateAction (Ref.statefulSet p) msg ∈ ds := by
    rw [hds]
    simp
  refine ⟨?_, ?_, ?_, ?_⟩
  · rw [hh]
    simp [setReplicasOne]
  · rw [hh]
    simp [setReplicasOne, hname]
  · rw [hh]
    simp [setReplicasOne]
  · rcases hcase with ⟨_, h, _⟩ | ⟨_, _, _, _, h⟩ | ⟨_, _, _, _, _, h⟩
    · rw [h]
      exact hmem
    · rw [h]
      exact List.mem_append_left _ hmem
    · rw [h]
      exact List.mem_append_left _ hmem

/-- The scenario of the test `Migrating_Image`: the running image is
`old_image`, the desired state asks for 5 replicas, the result has 1. -/
theorem Migrate_scales_down_witness :
    ∃ r, Migrate sampleConsts sampleTime emptyCr ⟨some 0, none⟩
        (heapOf [mkSet "keycloak" (some 5) "old_image", mkSet "keycloak" (some 5) "new"])
        [ClusterAction.GenericUpdateAction (Ref.statefulSet 1) ""] = some r ∧
      (r.heap 1).Replicas = some 1 := by
  have h := Migrate_scales_down sampleConsts sampleTime emptyCr ⟨some 0, none⟩
    (heapOf [mkSet "keycloak" (some 5) "old_image", mkSet "keycloak" (some 5) "new"])
    [ClusterAction.GenericUpdateAction (Ref.statefulSet 1) ""] [] [] 1 ""
    ⟨"old_image", by decide, by decide⟩ rfl (by decide) (by simp)
  obtain ⟨r, hr⟩ := h.2 (by decide)
  exact ⟨r, hr, (h.1 r hr).1⟩

/-! ## C4: absent primary workload -/

/-- C4 as stated fails: the primary workload is absent, backups are enabled
and the database workload runs `postgres:9.6` instead of the desired
`postgres:11.5`; `Migrate` pins the override and appends the two backup
actions to the empty desired state. -/
theorem Migrate_absent_primary_counterexample :
    (Migrate sampleConsts sampleTime backupCr ⟨none, some 0⟩
        (heapOf [mkSet "keycloak-postgresql" (some 1) "postgres:9.6"]) []).map
      (fun r => r.desiredState) =
      some [backupJobAction sampleTime (setPostgresqlOverride backupCr "postgres:9.6"),
            volumeClaimAction sampleTime (setPostgresqlOverride backupCr "postgres:9.6")] := by
  decide

/-- C4, amended: let the primary workload be absent.  If backups are disabled
or the database workload is absent or runs exactly the resolved desired
database image, every result of `Migrate` is the desired state unchanged,
with spec and heap unchanged, and `Migrate` returns whenever the database
workload, if present, has a first container.  If instead backups are enabled
and the database workload runs another image, `Migrate` returns the desired
state followed by the two backup actions. -/
theorem Migrate_absent_primary (m : Consts) (now : Time) (cr : Keycloak)
    (cs : ClusterState) (heap : Heap) (ds : DesiredClusterState)
    (hk : cs.KeycloakDeployment = none) :
    ((cr.Spec.Migrations.Backups.Enabled = false ∨ cs.PostgresqlDeployment = none ∨
        postgresqlCurrentImage heap cs = some (desiredPostgresqlImage m cr)) →
      (∀ r, Migrate m now cr cs heap ds = some r →
        r.desiredState = ds ∧ r.cr = cr ∧ r.heap = heap) ∧
      (hasContainer heap cs.PostgresqlDeployment = true →
        ∃ r, Migrate m now cr cs heap ds = some r ∧ r.desiredState = ds)) ∧
    (cr.Spec.Migrations.Backups.Enabled = true →
      ∀ img, postgresqlCurrentImage heap cs = some img →
        img ≠ desiredPostgresqlImage m cr →
        ∃ r, Migrate m now cr cs heap ds = some r ∧
          r.desiredState = ds ++ [backupJobAction now r.cr, volumeClaimAction now r.cr] ∧
          r.desiredState.length = ds.length + 2) := by
  have hN := needsMigration_of_absent m heap cr cs hk
  refine ⟨fun hq => ?_, fun hE img hi hne => ?_⟩
  · have key : ∀ r, Migrate m now cr cs heap ds = some r →
        r.desiredState = ds ∧ r.cr = cr ∧ r.heap = heap := by
      intro r hr
      obtain ⟨_, hheap, hcase⟩ := Migrate_inv m now cr cs heap ds r hr
      have hh : r.heap = heap := by
        rcases hheap with ⟨hN2, _⟩ | ⟨_, hh⟩
        · rw [hN] at hN2
          cases hN2
        · exact hh
      rcases hcase with ⟨hcr, hds, _⟩ | ⟨_, hN2, _⟩ | ⟨hE, hP, _⟩
      · exact ⟨hds, hcr, hh⟩
      · rw [hN] at hN2
        cases hN2
      · exfalso
        rcases hq with hq | hq | hq
        · rw [hE] at hq
          cases hq
        · rw [postgresqlNeedsMigration_of_absent m heap cr cs hq] at hP
          cases hP
        · rw [postgresqlNeedsMigration_of_image m heap cr cs _ hq] at hP
          simp at hP
    refine ⟨key, fun hw => ?_⟩
    have hwf : wellFormed heap cs = true := by
      unfold wellFormed
      rw [hk, hw]
      rfl
    obtain ⟨r, hr⟩ := Migrate_returns_of_wellFormed m now cr cs heap ds hwf
    exact ⟨r, hr, (key r hr).1⟩
  · have hP : postgresqlNeedsMigration m heap cr cs = some true := by
      rw [postgresqlNeedsMigration_of_image m heap cr cs img hi]
      simp only [Option.some.injEq, decide_eq_true_eq]
      exact fun e => hne e.symm
    obtain ⟨pimg, log, _, e⟩ := Migrate_database_pinned m now cr cs heap ds hN hE hP
    exact ⟨_, e, rfl, by simp⟩

/-- Three scenarios with an absent primary workload: the first test
(everything empty); a database workload running `postgres:9.6` with backups
off, where the desired state is returned as it is; and the test with the
overridden database image and backups on, where one action becomes three. -/
theorem Migrate_absent_primary_witness :
    (∃ r, Migrate sampleConsts sampleTime emptyCr ⟨none, none⟩ (heapOf []) [] = some r ∧
      r.desiredState = []) ∧
    (∃ r, Migrate sampleConsts sampleTime emptyCr ⟨none, some 0⟩
        (heapOf [mkSet "keycloak-postgresql" (some 1) "postgres:9.6"])
        [ClusterAction.GenericUpdateAction (Ref.statefulSet 0) ""] = some r ∧
      r.desiredState = [ClusterAction.GenericUpdateAction (Ref.statefulSet 0) ""]) ∧
    (∃ r, Migrate sampleConsts sampleTime postgresqlOverrideCr ⟨none, some 0⟩
        (heapOf [mkSet "keycloak-postgresql" (some 1) "postgres:11.5"])
        [ClusterAction.GenericUpdateAction (Ref.statefulSet 0) ""] = some r ∧
      r.desiredState.length = 3) := by
  refine ⟨?_, ?_, ?_⟩
  · exact ((Migrate_absent_primary sampleConsts sampleTime emptyCr ⟨none, none⟩ (heapOf []) []
      rfl).1 (Or.inl rfl)).2 rfl
  · exact ((Migrate_absent_primary sampleConsts sampleTime emptyCr ⟨none, some 0⟩
      (heapOf [mkSet "keycloak-postgresql" (some 1) "postgres:9.6"])
      [ClusterAction.GenericUpdateAction (Ref.statefulSet 0) ""] rfl).1 (Or.inl rfl)).2
      (by decide)
  · obtain ⟨r, hr, _, hlen⟩ := (Migrate_absent_primary sampleConsts sampleTime
      postgresqlOverrideCr ⟨none, some 0⟩
      (heapOf [mkSet "keycloak-postgresql" (some 1) "postgres:11.5"])
      [ClusterAction.GenericUpdateAction (Ref.statefulSet 0) ""] rfl).2 (by decide)
      "postgres:11.5" (by decide) (by decide)
    exact ⟨r, hr, hlen⟩

/-! ## C5: idempotence at convergence -/

/-- C5: when each of the two workloads is absent or runs exactly its resolved
desired image, `Migrate` returns the desired state it was given, without an
error, and leaves the heap (hence every replica count) and the spec (hence
the database image override) as they were. -/
theorem Migrate_idempotent_at_convergence (m : Consts) (now : Time) (cr : Keycloak)
    (cs : ClusterState) (heap : Heap) (ds : DesiredClusterState)
    (hk : cs.KeycloakDeployment = none ∨
      keycloakCurrentImage heap cs = some (desiredKeycloakImage m cr))
    (hp : cs.PostgresqlDeployment = none ∨
      postgresqlCurrentImage heap cs = some (desiredPostgresqlImage m cr)) :
    ∃ r, Migrate m now cr cs heap ds = some r ∧ r.desiredState = ds ∧ r.heap = heap ∧
      r.cr = cr ∧ r.err = none := by
  have hN : needsMigration m heap cr cs = some false := by
    rcases hk with hk | hk
    · exact needsMigration_of_absent m heap cr cs hk
    · rw [needsMigration_of_image m heap cr cs _ hk]
      simp
  have hP : postgresqlNeedsMigration m heap cr cs = some false := by
    rcases hp with hp | hp
    · exact postgresqlNeedsMigration_of_absent m heap cr cs hp
    · rw [postgresqlNeedsMigration_of_image m heap cr cs _ hp]
      simp
  exact ⟨_, Migrate_converged m now cr cs heap ds hN hP, rfl, rfl, rfl, rfl⟩

/-- The scenario of the test `No_Backup_Without_Migration`: backups enabled,
the primary workload runs the default image and is also the target of the
only update action; nothing changes. -/
theorem Migrate_idempotent_at_convergence_witness :
    ∃ r, Migrate sampleConsts sampleTime backupCr ⟨some 0, none⟩
        (heapOf [mkSet "keycloak" (some 5) "quay.io/keycloak/keycloak:9.0.0"])
        [ClusterAction.GenericUpdateAction (Ref.statefulSet 0) ""] = some r ∧
      r.desiredState = [ClusterAction.GenericUpdateAction (Ref.statefulSet 0) ""] ∧
      r.heap = heapOf [mkSet "keycloak" (some 5) "quay.io/keycloak/keycloak:9.0.0"] ∧
      r.cr = backupCr ∧ r.err = none :=
  Migrate_idempotent_at_convergence sampleConsts sampleTime backupCr ⟨some 0, none⟩
    (heapOf [mkSet "keycloak" (some 5) "quay.io/keycloak/keycloak:9.0.0"])
    [ClusterAction.GenericUpdateAction (Ref.statefulSet 0) ""]
    (Or.inr (by decide)) (Or.inl rfl)

/-! ## C6: backups disabled -/

/-- C6: when the backups-enabled flag of the spec is false, every result of
`Migrate` carries exactly the desired state it was given, nothing appended,
and the spec is unchanged, in particular its database image override;
`Migrate` returns on every current state whose present workloads have a
first container. -/
theorem Migrate_backups_disabled (m : Consts) (now : Time) (cr : Keycloak)
    (cs : ClusterState) (heap : Heap) (ds : DesiredClusterState)
    (hE : cr.Spec.Migrations.Backups.Enabled = false) :
    (∀ r, Migrate m now cr cs heap ds = some r →
      r.desiredState = ds ∧
      r.cr.Spec.ImageOverrides.Postgresql = cr.Spec.ImageOverrides.Postgresql ∧
      r.cr = cr) ∧
    (wellFormed heap cs = true → ∃ r, Migrate m now cr cs heap ds = some r) := by
  refine ⟨fun r hr => ?_, Migrate_returns_of_wellFormed m now cr cs heap ds⟩
  obtain ⟨_, _, hcase⟩ := Migrate_inv m now cr cs heap ds r hr
  rcases hcase with ⟨hcr, hds, _⟩ | ⟨hE2, _⟩ | ⟨hE2, _⟩
  · exact ⟨hds, by rw [hcr], hcr⟩
  · rw [hE] at hE2
    cases hE2
  · rw [hE] at hE2
    cases hE2

/-- The scenario of the test `No_Need_Backup_Without_Enabled_BackupConfig`:
the primary image is overridden, backups are off, and the result is the
input sequence. -/
theorem Migrate_backups_disabled_witness :
    ∃ r, Migrate sampleConsts sampleTime keycloakOverrideCr ⟨some 0, some 1⟩
        (heapOf [mkSet "keycloak" (some 5) "quay.io/keycloak/keycloak:9.0.0",
          mkSet "keycloak-postgresql" (some 1) "postgres:9.6"])
        [ClusterAction.GenericUpdateAction (Ref.statefulSet 0) ""] = some r ∧
      r.desiredState = [ClusterAction.GenericUpdateAction (Ref.statefulSet 0) ""] ∧
      r.cr.Spec.ImageOverrides.Postgresql = "" := by
  have h := Migrate_backups_disabled sampleConsts sampleTime keycloakOverrideCr
    ⟨some 0, some 1⟩
    (heapOf [mkSet "keycloak" (some 5) "quay.io/keycloak/keycloak:9.0.0",
      mkSet "keycloak-postgresql" (some 1) "postgres:9.6"])
    [ClusterAction.GenericUpdateAction (Ref.statefulSet 0) ""] (by decide)
  obtain ⟨r, hr⟩ := h.2 (by decide)
  exact ⟨r, hr, (h.1 r hr).1, (h.1 r hr).2.1⟩

/-! ## C7: the planner only appends -/

/-- C7: every result of `Migrate` has the given desired state as a prefix, so
it is at least as long, and its length is the input length or the input
length plus 2; `Migrate` returns on every current state whose present
workloads have a first container. -/
theorem Migrate_only_appends (m : Consts) (now : Time) (cr : Keycloak)
    (cs : ClusterState) (heap : Heap) (ds : DesiredClusterState) :
    (∀ r, Migrate m now cr cs heap ds = some r →
      ds <+: r.desiredState ∧ ds.length ≤ r.desiredState.length ∧
      (r.desiredState.length = ds.length ∨ r.desiredState.length = ds.length + 2)) ∧
    (wellFormed heap cs = true → ∃ r, Migrate m now cr cs heap ds = some r) := by
  refine ⟨fun r hr => ?_, Migrate_returns_of_wellFormed m now cr cs heap ds⟩
  obtain ⟨_, _, hcase⟩ := Migrate_inv m now cr cs heap ds r hr
  rcases hcase with ⟨_, h, _⟩ | ⟨_, _, _, _, h⟩ | ⟨_, _, _, _, _, h⟩
  · rw [h]
    exact ⟨List.prefix_refl ds, le_refl _, Or.inl rfl⟩
  · rw [h]
    exact ⟨List.prefix_append ds _, by simp, Or.inr (by simp)⟩
  · rw [h]
    exact ⟨List.prefix_append ds _, by simp, Or.inr (by simp)⟩

/-- Both lengths occur: with the primary image overridden and backups
enabled, one action becomes three. -/
theorem Migrate_only_appends_witness :
    ∃ r, Migrate sampleConsts sampleTime
        { keycloakOverrideCr with Spec := { keycloakOverrideCr.Spec with
            Migrations := { Backups := { Enabled := true } } } }
        ⟨some 0, none⟩ (heapOf [mkSet "keycloak" (some 5) "quay.io/keycloak/keycloak:9.0.0"])
        [ClusterAction.GenericUpdateAction (Ref.statefulSet 0) ""] = some r ∧
      [ClusterAction.GenericUpdateAction (Ref.statefulSet 0) ""] <+: r.desiredState := by
  have h := Migrate_only_appends sampleConsts sampleTime
    { keycloakOverrideCr with Spec := { keycloakOverrideCr.Spec with
        Migrations := { Backups := { Enabled := true } } } }
    ⟨some 0, none⟩ (heapOf [mkSet "keycloak" (some 5) "quay.io/keycloak/keycloak:9.0.0"])
    [ClusterAction.GenericUpdateAction (Ref.statefulSet 0) ""]
  obtain ⟨r, hr⟩ := h.2 (by decide)
  exact ⟨r, hr, (h.1 r hr).1⟩

/-! ## C8: totality -/

/-- C8 as stated fails: the primary workload is present with an empty
container list; `needsMigration` fails on `Containers[0]` and so does
`Migrate`.  The same holds for a database workload with an empty container
list. -/
theorem Migrate_total_counterexample :
    needsMigration sampleConsts (heapOf [emptySet "keycloak"]) emptyCr ⟨some 0, none⟩ = none ∧
    (Migrate sampleConsts sampleTime emptyCr ⟨some 0, none⟩
      (heapOf [emptySet "keycloak"]) []).isSome = false ∧
    postgresqlNeedsMigration sampleConsts (heapOf [emptySet "keycloak-postgresql"]) emptyCr
      ⟨none, some 0⟩ = none ∧
    (Migrate sampleConsts sampleTime emptyCr ⟨none, some 0⟩
      (heapOf [emptySet "keycloak-postgresql"]) []).isSome = false := by
  decide

/-- C8, amended: on every spec, every desired state and every current state
whose present workloads have a first container, both detectors return a
boolean and `Migrate` completes, returning a desired state and no error. -/
theorem Migrate_total (m : Consts) (now : Time) (cr : Keycloak)
    (cs : ClusterState) (heap : Heap) (ds : DesiredClusterState)
    (hw : wellFormed heap cs = true) :
    (∃ b, needsMigration m heap cr cs = some b) ∧
    (∃ b, postgresqlNeedsMigration m heap cr cs = some b) ∧
    ∃ r, Migrate m now cr cs heap ds = some r ∧ r.err = none := by
  have hw2 := hw
  unfold wellFormed at hw2
  rw [Bool.and_eq_true] at hw2
  obtain ⟨r, hr⟩ := Migrate_returns_of_wellFormed m now cr cs heap ds hw
  exact ⟨needsMigration_isSome_of_hasContainer m heap cr cs hw2.1,
    postgresqlNeedsMigration_isSome_of_hasContainer m heap cr cs hw2.2,
    r, hr, (Migrate_inv m now cr cs heap ds r hr).1⟩

/-- Both workloads present, each with one container: `Migrate` returns. -/
theorem Migrate_total_witness :
    ∃ r, Migrate sampleConsts sampleTime backupCr ⟨some 0, some 1⟩
        (heapOf [mkSet "keycloak" (some 5) "old_image",
          mkSet "keycloak-postgresql" (some 1) "postgres:9.6"]) [] = some r ∧
      r.err = none :=
  (Migrate_total sampleConsts sampleTime backupCr ⟨some 0, some 1⟩
    (heapOf [mkSet "keycloak" (some 5) "old_image",
      mkSet "keycloak-postgresql" (some 1) "postgres:9.6"]) [] (by decide)).2.2

/-! ## C9 and C10: the two detectors -/

/-- C9: `needsMigration` returns false when the primary workload is absent;
when it is present with a first container it returns true exactly when that
container's image differs from the resolved desired primary image; and two
current states whose primary workloads agree on the image of the first
container get the same answer, whatever their other fields. -/
theorem needsMigration_spec (m : Consts) (heap : Heap) (cr : Keycloak) (cs : ClusterState) :
    (cs.KeycloakDeployment = none → needsMigration m heap cr cs = some false) ∧
    (∀ p c rest, cs.KeycloakDeployment = some p → (heap p).Containers = c :: rest →
      ∃ b, needsMigration m heap cr cs = some b ∧
        (b = true ↔ c.Image ≠ desiredKeycloakImage m cr)) ∧
    (∀ heap2 cs2 p p2 c c2 rest rest2, cs.KeycloakDeployment = some p →
      cs2.KeycloakDeployment = some p2 → (heap p).Containers = c :: rest →
      (heap2 p2).Containers = c2 :: rest2 → c.Image = c2.Image →
      needsMigration m heap cr cs = needsMigration m heap2 cr cs2) := by
  have img : ∀ (hp : Heap) (st : ClusterState) q c rest, st.KeycloakDeployment = some q →
      (hp q).Containers = c :: rest → keycloakCurrentImage hp st = some c.Image := by
    intro hp st q c rest h1 h2
    unfold keycloakCurrentImage containerImage
    simp only [h1, h2]
  refine ⟨needsMigration_of_absent m heap cr cs, ?_, ?_⟩
  · intro p c rest hp hc
    refine ⟨_, needsMigration_of_image m heap cr cs c.Image (img heap cs p c rest hp hc), ?_⟩
    simp only [decide_eq_true_eq]
    exact ⟨fun h e => h e.symm, fun h e => h e.symm⟩
  · intro heap2 cs2 p p2 c c2 rest rest2 hp hp2 hc hc2 hi
    rw [needsMigration_of_image m heap cr cs c.Image (img heap cs p c rest hp hc),
      needsMigration_of_image m heap2 cr cs2 c2.Image (img heap2 cs2 p2 c2 rest2 hp2 hc2), hi]

/-- Two instances: the default image running gives false, `old_image` gives
true, under the empty spec. -/
theorem needsMigration_spec_witness :
    needsMigration sampleConsts
      (heapOf [mkSet "keycloak" (some 5) "quay.io/keycloak/keycloak:9.0.0"])
      emptyCr ⟨some 0, none⟩ = some false ∧
    needsMigration sampleConsts (heapOf [mkSet "keycloak" (some 5) "old_image"])
      emptyCr ⟨some 0, none⟩ = some true ∧
    needsMigration sampleConsts (heapOf []) emptyCr ⟨none, none⟩ = some false := by
  refine ⟨?_, ?_, (needsMigration_spec sampleConsts (heapOf []) emptyCr ⟨none, none⟩).1 rfl⟩
  · obtain ⟨b, hb, hiff⟩ := (needsMigration_spec sampleConsts
      (heapOf [mkSet "keycloak" (some 5) "quay.io/keycloak/keycloak:9.0.0"])
      emptyCr ⟨some 0, none⟩).2.1 0 _ _ rfl rfl
    cases b with
    | false => exact hb
    | true => exact absurd (hiff.1 rfl) (by decide)
  · obtain ⟨b, hb, hiff⟩ := (needsMigration_spec sampleConsts
      (heapOf [mkSet "keycloak" (some 5) "old_image"])
      emptyCr ⟨some 0, none⟩).2.1 0 _ _ rfl rfl
    cases b with
    | true => exact hb
    | false => exact absurd (hiff.2 (by decide)) (by decide)

/-- C10: `postgresqlNeedsMigration` returns false when the database workload
is absent; when it is present with a first container it returns true exactly
when that container's image differs from the desired database image, which
is the database override of the spec if that is not empty and the default
database image otherwise. -/
theorem postgresqlNeedsMigration_spec (m : Consts) (heap : Heap) (cr : Keycloak)
    (cs : ClusterState) :
    (cs.PostgresqlDeployment = none → postgresqlNeedsMigration m heap cr cs = some false) ∧
    (∀ p c rest, cs.PostgresqlDeployment = some p → (heap p).Containers = c :: rest →
      ∃ b, postgresqlNeedsMigration m heap cr cs = some b ∧
        (b = true ↔ c.Image ≠
          (if cr.Spec.ImageOverrides.Postgresql ≠ "" then cr.Spec.ImageOverrides.Postgresql
           else m.PostgresqlImage))) := by
  refine ⟨postgresqlNeedsMigration_of_absent m heap cr cs, ?_⟩
  intro p c rest hp hc
  have hi : postgresqlCurrentImage heap cs = some c.Image := by
    unfold postgresqlCurrentImage containerImage
    simp only [hp, hc]
  refine ⟨_, postgresqlNeedsMigration_of_image m heap cr cs c.Image hi, ?_⟩
  simp only [decide_eq_true_eq, desiredPostgresqlImage]
  exact ⟨fun h e => h e.symm, fun h e => h e.symm⟩

/-- Two instances: an absent database workload, and the default image
running under the override `postgresql:1.0.0`. -/
theorem postgresqlNeedsMigration_spec_witness :
    postgresqlNeedsMigration sampleConsts (heapOf []) emptyCr ⟨none, none⟩ = some false ∧
    postgresqlNeedsMigration sampleConsts
      (heapOf [mkSet "keycloak-postgresql" (some 1) "postgres:11.5"])
      postgresqlOverrideCr ⟨none, some 0⟩ = some true := by
  refine ⟨(postgresqlNeedsMigration_spec sampleConsts (heapOf []) emptyCr ⟨none, none⟩).1 rfl,
    ?_⟩
  obtain ⟨b, hb, hiff⟩ := (postgresqlNeedsMigration_spec sampleConsts
    (heapOf [mkSet "keycloak-postgresql" (some 1) "postgres:11.5"])
    postgresqlOverrideCr ⟨none, some 0⟩).2 0 _ _ rfl rfl
  cases b with
  | true => exact hb
  | false => exact absurd (hiff.2 (by decide)) (by decide)

/-! ## The timestamp format -/

theorem digitChar_value (k : Nat) (hk : k < 10) : (Nat.digitChar k).toNat - 48 = k := by
  interval_cases k <;> rfl

theorem foldl_toDigitsCore (fuel : Nat) :
    ∀ (n : Nat) (ds : List Char), n < fuel →
      List.foldl (fun acc c => 10 * acc + (c.toNat - 48)) 0 (Nat.toDigitsCore 10 fuel n ds) =
        List.foldl (fun acc c => 10 * acc + (c.toNat - 48)) n ds := by
  induction fuel with
  | zero => intro n ds h; omega
  | succ fuel ih =>
    intro n ds h
    have hd : (Nat.digitChar (n % 10)).toNat - 48 = n % 10 :=
      digitChar_value (n % 10) (Nat.mod_lt n (by decide))
    unfold Nat.toDigitsCore
    by_cases h0 : n / 10 = 0
    · simp only [h0, if_true, List.foldl_cons, Nat.mul_zero, Nat.zero_add, hd]
      have : n % 10 = n := by omega
      rw [this]
    · simp only [h0, if_false]
      rw [ih (n / 10) _ (by omega)]
      simp only [List.foldl_cons, hd]
      have : 10 * (n / 10) + n % 10 = n := by omega
      rw [this]

theorem digitsValue_zeroPad (width n : Nat) : digitsValue (zeroPad width n).data = n := by
  unfold digitsValue zeroPad
  simp only [List.foldl_append]
  have hz : ∀ k : Nat, List.foldl (fun acc c => 10 * acc + (c.toNat - 48)) 0
      (List.replicate k '0') = 0 := by
    intro k
    induction k with
    | zero => rfl
    | succ k ih => simpa [List.replicate_succ] using ih
  rw [hz]
  exact foldl_toDigitsCore (n + 1) n [] (Nat.lt_succ_self n)

theorem zeroPad_injective (width a b : Nat) (h : zeroPad width a = zeroPad width b) :
    a = b := by
  rw [← digitsValue_zeroPad width a, ← digitsValue_zeroPad width b, h]

theorem zeroPad_two_length : ∀ n, n < 100 → (zeroPad 2 n).data.length = 2 := by
  decide

theorem zeroPad_data_injective (width a b : Nat)
    (h : (zeroPad width a).data = (zeroPad width b).data) : a = b :=
  zeroPad_injective width a b (String.ext h)

/-- Equal timestamps come from readings within the same second. -/
theorem format_sameSecond (a b : Time) (ha : a.valid = true) (hb : b.valid = true)
    (h : a.format = b.format) : a.sameSecond b = true := by
  simp only [Time.valid, decide_eq_true_eq] at ha hb
  have hd := congrArg String.data h
  simp only [Time.format, String.data_append, List.append_assoc] at hd
  have aM := zeroPad_two_length a.Month (by omega)
  have aD := zeroPad_two_length a.Day (by omega)
  have aH := zeroPad_two_length a.Hour (by omega)
  have aI := zeroPad_two_length a.Minute (by omega)
  have aS := zeroPad_two_length a.Second (by omega)
  have bM := zeroPad_two_length b.Month (by omega)
  have bD := zeroPad_two_length b.Day (by omega)
  have bH := zeroPad_two_length b.Hour (by omega)
  have bI := zeroPad_two_length b.Minute (by omega)
  have bS := zeroPad_two_length b.Second (by omega)
  obtain ⟨hY, hd⟩ := List.append_inj' hd
    (by simp only [List.length_append, aM, aD, aH, aI, aS, bM, bD, bH, bI, bS])
  obtain ⟨hM, hd⟩ := List.append_inj hd (by rw [aM, bM])
  obtain ⟨hD, hd⟩ := List.append_inj hd (by rw [aD, bD])
  obtain ⟨_, hd⟩ := List.append_inj hd rfl
  obtain ⟨hH, hd⟩ := List.append_inj hd (by rw [aH, bH])
  obtain ⟨hI, hS⟩ := List.append_inj hd (by rw [aI, bI])
  simp only [Time.sameSecond, decide_eq_true_eq]
  exact ⟨zeroPad_data_injective 4 _ _ hY, zeroPad_data_injective 2 _ _ hM,
    zeroPad_data_injective 2 _ _ hD, zeroPad_data_injective 2 _ _ hH,
    zeroPad_data_injective 2 _ _ hI, zeroPad_data_injective 2 _ _ hS⟩

theorem format_of_sameSecond (a b : Time) (h : a.sameSecond b = true) :
    a.format = b.format := by
  simp only [Time.sameSecond, decide_eq_true_eq] at h
  obtain ⟨h1, h2, h3, h4, h5, h6⟩ := h
  simp only [Time.format, h1, h2, h3, h4, h5, h6]

/-! ## C17: the name of the backup resource -/

/-- C17: with the clock reading `now` as an argument, `oneTimeLocalDatabaseBackup`
appends the backup job and the volume claim built for a backup resource whose
namespace is that of the spec and whose name is `migration-backup-` followed
by the reading formatted as year (4 digits), month, day, a dash, hour, minute
and second (2 digits each), and logs that name.  Two readings within the same
second give the same name; two readings with calendar fields in range that
lie in different seconds give different names. -/
theorem oneTimeLocalDatabaseBackup_name (now : Time) (cr : Keycloak)
    (ds : DesiredClusterState) :
    (oneTimeLocalDatabaseBackup now cr ds).1 =
      ds ++ [ClusterAction.GenericCreateAction
               (Ref.postgresqlBackup (backupCrOf now cr) cr) "Create Local Backup job",
             ClusterAction.GenericCreateAction
               (Ref.postgresqlBackupPersistentVolumeClaim (backupCrOf now cr))
               "Create Local Backup Persistent Volume Claim"] ∧
    (oneTimeLocalDatabaseBackup now cr ds).2 =
      ["Ready to perform migration OnetimeLocalBackup with name '" ++
        (backupCrOf now cr).Name ++ "'"] ∧
    (backupCrOf now cr).Namespace = cr.Namespace ∧
    (backupCrOf now cr).Name = "migration-backup-" ++
      (zeroPad 4 now.Year ++ zeroPad 2 now.Month ++ zeroPad 2 now.Day ++ "-" ++
        zeroPad 2 now.Hour ++ zeroPad 2 now.Minute ++ zeroPad 2 now.Second) ∧
    (∀ now2 cr2, now.sameSecond now2 = true →
      (backupCrOf now2 cr2).Name = (backupCrOf now cr).Name) ∧
    (∀ now2 cr2, now.valid = true → now2.valid = true → now.sameSecond now2 = false →
      (backupCrOf now2 cr2).Name ≠ (backupCrOf now cr).Name) := by
  refine ⟨?_, rfl, rfl, rfl, ?_, ?_⟩
  · simp [oneTimeLocalDatabaseBackup, AddAction]
  · intro now2 cr2 h
    simp only [backupCrOf, format_of_sameSecond now now2 h]
  · intro now2 cr2 hv hv2 hs hname
    simp only [backupCrOf] at hname
    have hd := congrArg String.data hname
    simp only [String.data_append] at hd
    have hf : now.format = now2.format := (String.ext (List.append_cancel_left hd)).symm
    rw [format_sameSecond now now2 hv hv2 hf] at hs
    cases hs

/-- The sample reading of 2020-03-09 14:05:07: its name, the same name 650 ms
later, and another name one second later. -/
theorem oneTimeLocalDatabaseBackup_name_witness :
    (backupCrOf sampleTime backupCr).Name = "migration-backup-20200309-140507" ∧
    (backupCrOf sampleTimeLater backupCr).Name = (backupCrOf sampleTime backupCr).Name ∧
    (backupCrOf sampleTimeNext backupCr).Name ≠ (backupCrOf sampleTime backupCr).Name := by
  have h := oneTimeLocalDatabaseBackup_name sampleTime backupCr []
  exact ⟨by decide, h.2.2.2.2.1 sampleTimeLater backupCr (by decide),
    h.2.2.2.2.2 sampleTimeNext backupCr (by decide) (by decide) (by decide)⟩

/-! ## Further auxiliary facts -/

/-- The first line logged by `Migrate` when the primary workload needs migration. -/
theorem Migrate_log_head (m : Consts) (now : Time) (cr : Keycloak) (cs : ClusterState)
    (heap : Heap) (ds : DesiredClusterState) (r : MigrateResult)
    (hN : needsMigration m heap cr cs = some true)
    (hr : Migrate m now cr cs heap ds = some r) :
    ∃ img, keycloakCurrentImage heap cs = some img ∧
      r.log.head? = some ("Performing migration from '" ++ img ++ "' to '" ++
        desiredKeycloakImage m cr ++ "'") := by
  obtain ⟨img, himg, _⟩ := keycloakCurrentImage_of_needsMigration_true m heap cr cs hN
  refine ⟨img, himg, ?_⟩
  unfold Migrate at hr
  simp only [hN, himg] at hr
  cases hf : findDeployment m heap ds <;> simp only [hf] at hr <;>
    cases hE : cr.Spec.Migrations.Backups.Enabled <;>
    simp only [hE, Bool.false_eq_true, if_false, if_true] at hr
  all_goals first
    | (cases hr; rfl)
    | (split at hr <;> first
        | (cases hr; done)
        | (cases hr; rfl)
        | (split at hr <;> first
            | (cases hr; done)
            | (cases hr; rfl)))

theorem findDeployment_eq_none (m : Consts) (heap : Heap) (ds : DesiredClusterState)
    (hno : ∀ a ∈ ds, targetsDeployment m heap a = false) :
    findDeployment m heap ds = none := by
  induction ds with
  | nil => rfl
  | cons a ds ih =>
    have ha := hno a (List.mem_cons_self a ds)
    have ih2 := ih (fun b hb => hno b (List.mem_cons_of_mem a hb))
    cases a with
    | GenericCreateAction ref msg => simpa [findDeployment] using ih2
    | GenericUpdateAction ref msg =>
      cases ref with
      | statefulSet q =>
        simp only [targetsDeployment, decide_eq_false_iff_not] at ha
        simpa [findDeployment, ha] using ih2
      | postgresqlBackup b c => simpa [findDeployment] using ih2
      | postgresqlBackupPersistentVolumeClaim b => simpa [findDeployment] using ih2
      | other k n => simpa [findDeployment] using ih2

/-- What `findDeployment` returns is the target of the first matching action. -/
theorem findDeployment_some (m : Consts) (heap : Heap) (ds : DesiredClusterState) (p : Ptr)
    (h : findDeployment m heap ds = some p) :
    ∃ pre msg post,
      ds = pre ++ ClusterAction.GenericUpdateAction (Ref.statefulSet p) msg :: post ∧
      (heap p).Name = m.KeycloakDeploymentName ∧
      ∀ a ∈ pre, targetsDeployment m heap a = false := by
  induction ds with
  | nil => simp [findDeployment] at h
  | cons a ds ih =>
    have step : targetsDeployment m heap a = false → findDeployment m heap ds = some p →
        ∃ pre msg post,
          a :: ds = pre ++ ClusterAction.GenericUpdateAction (Ref.statefulSet p) msg :: post ∧
          (heap p).Name = m.KeycloakDeploymentName ∧
          ∀ b ∈ pre, targetsDeployment m heap b = false := by
      intro ha hrest
      obtain ⟨pre, msg, post, e, hn, hpre⟩ := ih hrest
      refine ⟨a :: pre, msg, post, by rw [e]; rfl, hn, ?_⟩
      intro b hb
      rcases List.mem_cons.1 hb with hb | hb
      · rw [hb]
        exact ha
      · exact hpre b hb
    cases a with
    | GenericCreateAction ref msg => exact step rfl (by simpa [findDeployment] using h)
    | GenericUpdateAction ref msg =>
      cases ref with
      | statefulSet q =>
        by_cases hq : (heap q).Name = m.KeycloakDeploymentName
        · simp only [findDeployment, hq, if_true, Option.some.injEq] at h
          subst h
          exact ⟨[], msg, ds, rfl, hq, by simp⟩
        · exact step (by simp [targetsDeployment, hq]) (by simpa [findDeployment, hq] using h)
      | postgresqlBackup b c => exact step rfl (by simpa [findDeployment] using h)
      | postgresqlBackupPersistentVolumeClaim b =>
        exact step rfl (by simpa [findDeployment] using h)
      | other k n => exact step rfl (by simpa [findDeployment] using h)

/-- The scale-down step keeps names and containers and changes a replica
count only on the object found, to 1. -/
theorem scaledDown_frame (m : Consts) (heap : Heap) (ds : DesiredClusterState) (q : Ptr) :
    (scaledDown m heap ds q).Name = (heap q).Name ∧
    (scaledDown m heap ds q).Containers = (heap q).Containers ∧
    ((scaledDown m heap ds q).Replicas ≠ (heap q).Replicas →
      findDeployment m heap ds = some q ∧ (scaledDown m heap ds q).Replicas = some 1) ∧
    (findDeployment m heap ds ≠ some q → scaledDown m heap ds q = heap q) := by
  unfold scaledDown
  cases hf : findDeployment m heap ds with
  | none => simp
  | some p =>
    by_cases hq : q = p
    · subst hq
      simp [setReplicasOne]
    · have hne : p ≠ q := fun e => hq e.symm
      simp [setReplicasOne, Function.update_noteq hq, hne]

theorem postgresqlCurrentImage_scaledDown (m : Consts) (heap : Heap)
    (ds : DesiredClusterState) (cs : ClusterState) :
    postgresqlCurrentImage (scaledDown m heap ds) cs = postgresqlCurrentImage heap cs := by
  unfold scaledDown
  cases findDeployment m heap ds with
  | none => rfl
  | some p => exact postgresqlCurrentImage_setReplicasOne heap p cs

theorem Migrate_primary_noBackup_noTarget (m : Consts) (now : Time) (cr : Keycloak)
    (cs : ClusterState) (heap : Heap) (ds : DesiredClusterState) (img : String)
    (hN : needsMigration m heap cr cs = some true)
    (hi : keycloakCurrentImage heap cs = some img)
    (hE : cr.Spec.Migrations.Backups.Enabled = false)
    (hf : findDeployment m heap ds = none) :
    Migrate m now cr cs heap ds =
      some ⟨cr, heap, ds, none,
        ["Performing migration from '" ++ img ++ "' to '" ++
          desiredKeycloakImage m cr ++ "'"]⟩ := by
  unfold Migrate
  simp only [hN, hi, hf, hE, Bool.false_eq_true, if_false]

/-! ## C11: the desired primary image -/

/-- C11 as stated fails: under the RHSSO profile the spec carries the Keycloak
override `keycloak:1.0.0` and no RHSSO override; the desired primary image is
the RHSSO default, not the override, so a workload already running
`keycloak:1.0.0` is reported as needing migration and the log line names the
RHSSO default as target. -/
theorem desiredKeycloakImage_counterexample :
    rhssoKeycloakOverrideCr.Spec.ImageOverrides.Keycloak = "keycloak:1.0.0" ∧
    desiredKeycloakImage sampleConsts rhssoKeycloakOverrideCr =
      "registry.access.redhat.com/redhat-sso-7/sso73-openshift:1.0-15" ∧
    needsMigration sampleConsts (heapOf [mkSet "keycloak" (some 1) "keycloak:1.0.0"])
      rhssoKeycloakOverrideCr ⟨some 0, none⟩ = some true ∧
    (Migrate sampleConsts sampleTime rhssoKeycloakOverrideCr ⟨some 0, none⟩
        (heapOf [mkSet "keycloak" (some 1) "keycloak:1.0.0"]) []).map (fun r => r.log) =
      some ["Performing migration from 'keycloak:1.0.0' to " ++
        "'registry.access.redhat.com/redhat-sso-7/sso73-openshift:1.0-15'"] := by
  decide

/-- C11, amended: the desired primary image is a function of the profile and
of the two primary-application overrides of the spec alone.  Under the RHSSO
profile it is the RHSSO override if that is not empty and the RHSSO default
otherwise, the Keycloak override not being consulted; under any other profile
it is the Keycloak override if that is not empty and the Keycloak default
otherwise.  This is the image `needsMigration` compares the running image
with, and the target image in the first line `Migrate` logs when the primary
workload needs migration. -/
theorem desiredKeycloakImage_spec (m : Consts) (cr : Keycloak) :
    (cr.Spec.Profile = m.RHSSOProfile →
      desiredKeycloakImage m cr =
        if cr.Spec.ImageOverrides.RHSSO ≠ "" then cr.Spec.ImageOverrides.RHSSO
        else m.RHSSOImage) ∧
    (cr.Spec.Profile ≠ m.RHSSOProfile →
      desiredKeycloakImage m cr =
        if cr.Spec.ImageOverrides.Keycloak ≠ "" then cr.Spec.ImageOverrides.Keycloak
        else m.KeycloakImage) ∧
    (∀ cr2 : Keycloak, cr2.Spec.Profile = cr.Spec.Profile →
      cr2.Spec.ImageOverrides.Keycloak = cr.Spec.ImageOverrides.Keycloak →
      cr2.Spec.ImageOverrides.RHSSO = cr.Spec.ImageOverrides.RHSSO →
      desiredKeycloakImage m cr2 = desiredKeycloakImage m cr) ∧
    (∀ heap cs img, keycloakCurrentImage heap cs = some img →
      needsMigration m heap cr cs = some (decide (desiredKeycloakImage m cr ≠ img))) ∧
    (∀ now cs heap ds r, needsMigration m heap cr cs = some true →
      Migrate m now cr cs heap ds = some r →
      ∃ img, keycloakCurrentImage heap cs = some img ∧
        r.log.head? = some ("Performing migration from '" ++ img ++ "' to '" ++
          desiredKeycloakImage m cr ++ "'")) := by
  refine ⟨fun h => ?_, fun h => ?_, fun cr2 h1 h2 h3 => ?_, fun heap cs img h => ?_,
    fun now cs heap ds r hN hr => ?_⟩
  · simp only [desiredKeycloakImage, h, if_true]
  · simp only [desiredKeycloakImage, h, if_false]
  · simp only [desiredKeycloakImage, h1, h2, h3]
  · exact needsMigration_of_image m heap cr cs img h
  · exact Migrate_log_head m now cr cs heap ds r hN hr

/-- Two instances under the sample constants: the RHSSO default under the
RHSSO profile, and the Keycloak override under the default profile. -/
theorem desiredKeycloakImage_spec_witness :
    desiredKeycloakImage sampleConsts rhssoKeycloakOverrideCr =
      "registry.access.redhat.com/redhat-sso-7/sso73-openshift:1.0-15" ∧
    desiredKeycloakImage sampleConsts keycloakOverrideCr = "keycloak:1.0.0" := by
  refine ⟨?_, ?_⟩
  · rw [(desiredKeycloakImage_spec sampleConsts rhssoKeycloakOverrideCr).1 (by decide)]
    decide
  · rw [(desiredKeycloakImage_spec sampleConsts keycloakOverrideCr).2.1 (by decide)]
    decide

/-! ## C12: the rollout target is missing -/

/-- C12: when the primary workload needs migration, backups are disabled and
no update action of the desired state targets a StatefulSet named
`model.KeycloakDeploymentName`, `Migrate` returns the desired state it was
given, with a nil error, leaves every object and the spec as they were, and
logs the image transition only. -/
theorem Migrate_missing_target (m : Consts) (now : Time) (cr : Keycloak)
    (cs : ClusterState) (heap : Heap) (ds : DesiredClusterState)
    (hN : needsMigration m heap cr cs = some true)
    (hE : cr.Spec.Migrations.Backups.Enabled = false)
    (hno : ∀ a ∈ ds, targetsDeployment m heap a = false) :
    ∃ r, Migrate m now cr cs heap ds = some r ∧ r.desiredState = ds ∧ r.heap = heap ∧
      r.cr = cr ∧ r.err = none ∧ r.log.length = 1 := by
  obtain ⟨img, hi, _⟩ := keycloakCurrentImage_of_needsMigration_true m heap cr cs hN
  exact ⟨_, Migrate_primary_noBackup_noTarget m now cr cs heap ds img hN hi hE
    (findDeployment_eq_none m heap ds hno), rfl, rfl, rfl, rfl, rfl⟩

/-- The scenario of the test
`No_Need_For_Migration_On_Missing_Deployment_In_Desired_State`: the primary
workload runs `old_image` and the only action updates a Service. -/
theorem Migrate_missing_target_witness :
    ∃ r, Migrate sampleConsts sampleTime emptyCr ⟨some 0, none⟩
        (heapOf [mkSet "keycloak" (some 5) "old_image"])
        [ClusterAction.GenericUpdateAction (Ref.other "Service" "keycloak") ""] = some r ∧
      r.desiredState = [ClusterAction.GenericUpdateAction (Ref.other "Service" "keycloak") ""] ∧
      r.heap = heapOf [mkSet "keycloak" (some 5) "old_image"] ∧
      r.cr = emptyCr ∧ r.err = none ∧ r.log.length = 1 :=
  Migrate_missing_target sampleConsts sampleTime emptyCr ⟨some 0, none⟩
    (heapOf [mkSet "keycloak" (some 5) "old_image"])
    [ClusterAction.GenericUpdateAction (Ref.other "Service" "keycloak") ""]
    (by decide) (by decide) (by decide)

/-! ## C14: no error value -/

/-- C14: whenever `Migrate` returns, the error it returns is nil; and it
does return, with a nil error, on every current state whose present
workloads have a first container. -/
theorem Migrate_no_error (m : Consts) (now : Time) (cr : Keycloak)
    (cs : ClusterState) (heap : Heap) (ds : DesiredClusterState) :
    (∀ r, Migrate m now cr cs heap ds = some r → r.err = none) ∧
    (wellFormed heap cs = true →
      ∃ r, Migrate m now cr cs heap ds = some r ∧ r.err = none) := by
  refine ⟨fun r hr => (Migrate_inv m now cr cs heap ds r hr).1, fun hw => ?_⟩
  obtain ⟨r, hr⟩ := Migrate_returns_of_wellFormed m now cr cs heap ds hw
  exact ⟨r, hr, (Migrate_inv m now cr cs heap ds r hr).1⟩

/-- Two scenarios: the first test (everything empty), and a run in which both
workloads need migration with backups on; the error is nil in both. -/
theorem Migrate_no_error_witness :
    (∃ r, Migrate sampleConsts sampleTime emptyCr ⟨none, none⟩ (heapOf []) [] = some r ∧
      r.err = none) ∧
    (∃ r, Migrate sampleConsts sampleTime backupCr ⟨some 0, some 1⟩
        (heapOf [mkSet "keycloak" (some 5) "old_image",
          mkSet "keycloak-postgresql" (some 1) "postgres:9.6"])
        [ClusterAction.GenericUpdateAction (Ref.statefulSet 0) ""] = some r ∧
      r.err = none) :=
  ⟨(Migrate_no_error sampleConsts sampleTime emptyCr ⟨none, none⟩ (heapOf []) []).2 rfl,
   (Migrate_no_error sampleConsts sampleTime backupCr ⟨some 0, some 1⟩
      (heapOf [mkSet "keycloak" (some 5) "old_image",
        mkSet "keycloak-postgresql" (some 1) "postgres:9.6"])
      [ClusterAction.GenericUpdateAction (Ref.statefulSet 0) ""]).2 (by decide)⟩

/-- The heap `Migrate` leaves behind, in either branch. -/
theorem Migrate_heap (m : Consts) (now : Time) (cr : Keycloak) (cs : ClusterState)
    (heap : Heap) (ds : DesiredClusterState) (r : MigrateResult)
    (hr : Migrate m now cr cs heap ds = some r) :
    (needsMigration m heap cr cs = some false → r.heap = heap) ∧
    (∀ q, (r.heap q).Name = (heap q).Name ∧ (r.heap q).Containers = (heap q).Containers ∧
      (findDeployment m heap ds ≠ some q → r.heap q = heap q) ∧
      ((r.heap q).Replicas ≠ (heap q).Replicas →
        needsMigration m heap cr cs = some true ∧ findDeployment m heap ds = some q ∧
        (r.heap q).Replicas = some 1)) := by
  obtain ⟨_, hheap, _⟩ := Migrate_inv m now cr cs heap ds r hr
  rcases hheap with ⟨hN, hh⟩ | ⟨hN, hh⟩
  · refine ⟨fun h => ?_, fun q => ?_⟩
    · rw [hN] at h
      cases h
    · rw [hh]
      obtain ⟨h1, h2, h3, h4⟩ := scaledDown_frame m heap ds q
      exact ⟨h1, h2, h4, fun hne => ⟨hN, (h3 hne).1, (h3 hne).2⟩⟩
  · refine ⟨fun _ => hh, fun q => ?_⟩
    rw [hh]
    exact ⟨rfl, rfl, fun _ => rfl, fun hne => absurd rfl hne⟩

/-- In the branch where the primary workload needs migration, the object that
`findDeployment` finds has 1 replica afterwards. -/
theorem Migrate_heap_target (m : Consts) (now : Time) (cr : Keycloak) (cs : ClusterState)
    (heap : Heap) (ds : DesiredClusterState) (r : MigrateResult) (q : Ptr)
    (hr : Migrate m now cr cs heap ds = some r)
    (hN : needsMigration m heap cr cs = some true)
    (hf : findDeployment m heap ds = some q) :
    (r.heap q).Replicas = some 1 := by
  obtain ⟨_, hheap, _⟩ := Migrate_inv m now cr cs heap ds r hr
  rcases hheap with ⟨_, hh⟩ | ⟨hN2, _⟩
  · rw [hh]
    unfold scaledDown
    simp [hf, setReplicasOne]
  · rw [hN] at hN2
    cases hN2

/-! ## C13: frame on the spec and on the current state -/

/-- C13 as stated fails: the only update action of the desired state targets
the very object that the current state holds as primary workload (as in the
tests of the repository); the primary image is overridden, so after
`Migrate` the primary workload of the current state has 1 replica instead
of 5. -/
theorem Migrate_frame_counterexample :
    ((heapOf [mkSet "keycloak" (some 5) "quay.io/keycloak/keycloak:9.0.0"]) 0).Replicas =
      some 5 ∧
    (Migrate sampleConsts sampleTime keycloakOverrideCr ⟨some 0, none⟩
        (heapOf [mkSet "keycloak" (some 5) "quay.io/keycloak/keycloak:9.0.0"])
        [ClusterAction.GenericUpdateAction (Ref.statefulSet 0) ""]).map
      (fun r => (r.heap 0).Replicas) = some (some 1) := by
  decide

/-- C13, amended: after `Migrate` every field of the spec other than the
database image override is unchanged; that override changes only when backups
are enabled and the database needs migration, and with backups enabled and
the database needing migration it is the running image of the database
workload.  Every workload object keeps its name and containers, hence its
running image, and an object other than the one `findDeployment` finds in the
desired state is unchanged altogether; the object `findDeployment` finds has
replica count 1 when the primary workload needs migration, a replica count
changes nowhere else, and nothing at all changes on the heap when the primary
workload needs no migration.  `Migrate` returns on every current state whose
present workloads have a first container. -/
theorem Migrate_frame (m : Consts) (now : Time) (cr : Keycloak)
    (cs : ClusterState) (heap : Heap) (ds : DesiredClusterState) :
    (∀ r, Migrate m now cr cs heap ds = some r →
      (r.cr.Namespace = cr.Namespace ∧ r.cr.Name = cr.Name ∧
        r.cr.Spec.Profile = cr.Spec.Profile ∧
        r.cr.Spec.ImageOverrides.Keycloak = cr.Spec.ImageOverrides.Keycloak ∧
        r.cr.Spec.ImageOverrides.RHSSO = cr.Spec.ImageOverrides.RHSSO ∧
        r.cr.Spec.Migrations = cr.Spec.Migrations) ∧
      (r.cr.Spec.ImageOverrides.Postgresql ≠ cr.Spec.ImageOverrides.Postgresql →
        cr.Spec.Migrations.Backups.Enabled = true ∧
        postgresqlNeedsMigration m heap cr cs = some true) ∧
      (cr.Spec.Migrations.Backups.Enabled = true →
        postgresqlNeedsMigration m heap cr cs = some true →
        postgresqlCurrentImage heap cs = some r.cr.Spec.ImageOverrides.Postgresql) ∧
      (∀ q, (r.heap q).Name = (heap q).Name ∧ (r.heap q).Containers = (heap q).Containers ∧
        (findDeployment m heap ds ≠ some q → r.heap q = heap q)) ∧
      (needsMigration m heap cr cs = some false → r.heap = heap) ∧
      (∀ q, needsMigration m heap cr cs = some true → findDeployment m heap ds = some q →
        (r.heap q).Replicas = some 1) ∧
      (∀ q, (r.heap q).Replicas ≠ (heap q).Replicas →
        needsMigration m heap cr cs = some true ∧ findDeployment m heap ds = some q ∧
        (r.heap q).Replicas = some 1)) ∧
    (wellFormed heap cs = true → ∃ r, Migrate m now cr cs heap ds = some r) := by
  refine ⟨fun r hr => ?_, Migrate_returns_of_wellFormed m now cr cs heap ds⟩
  obtain ⟨hh0, hhq⟩ := Migrate_heap m now cr cs heap ds r hr
  obtain ⟨_, _, hcase⟩ := Migrate_inv m now cr cs heap ds r hr
  refine ⟨?_, ?_, ?_, fun q => ⟨(hhq q).1, (hhq q).2.1, (hhq q).2.2.1⟩, hh0,
    fun q hN hf => Migrate_heap_target m now cr cs heap ds r q hr hN hf,
    fun q => (hhq q).2.2.2⟩
  · rcases hcase with ⟨hcr, _, _⟩ | ⟨_, _, _, hcr, _⟩ | ⟨_, _, img, _, hcr, _⟩
    · rw [hcr]
      exact ⟨rfl, rfl, rfl, rfl, rfl, rfl⟩
    · rw [hcr]
      exact ⟨rfl, rfl, rfl, rfl, rfl, rfl⟩
    · rw [hcr]
      exact ⟨rfl, rfl, rfl, rfl, rfl, rfl⟩
  · intro hne
    rcases hcase with ⟨hcr, _, _⟩ | ⟨_, _, _, hcr, _⟩ | ⟨hE, hP, _⟩
    · rw [hcr] at hne
      exact absurd rfl hne
    · rw [hcr] at hne
      exact absurd rfl hne
    · exact ⟨hE, hP⟩
  · intro hE hP
    rcases hcase with ⟨_, _, hno⟩ | ⟨_, _, hP2, _⟩ | ⟨_, _, img, hi, hcr, _⟩
    · rcases hno with hno | ⟨_, hP2⟩
      · rw [hE] at hno
        cases hno
      · rw [hP] at hP2
        cases hP2
    · rw [hP] at hP2
      cases hP2
    · rw [hcr, hi]
      rfl

/-- Two scenarios.  In the test with the overridden database image the
override becomes the running image `postgres:11.5`, the other fields of the
spec and the database workload are as before.  In the test with the
overridden primary image, where the update action shares its object with the
current state, that object ends with 1 replica and keeps its image, and the
database workload is untouched. -/
theorem Migrate_frame_witness :
    (∃ r, Migrate sampleConsts sampleTime postgresqlOverrideCr ⟨none, some 0⟩
        (heapOf [mkSet "keycloak-postgresql" (some 1) "postgres:11.5"])
        [ClusterAction.GenericUpdateAction (Ref.statefulSet 0) ""] = some r ∧
      r.cr.Spec.ImageOverrides.Postgresql = "postgres:11.5" ∧
      r.cr.Spec.Migrations = postgresqlOverrideCr.Spec.Migrations ∧
      r.heap 0 = mkSet "keycloak-postgresql" (some 1) "postgres:11.5") ∧
    (∃ r, Migrate sampleConsts sampleTime keycloakOverrideCr ⟨some 0, some 1⟩
        (heapOf [mkSet "keycloak" (some 5) "quay.io/keycloak/keycloak:9.0.0",
          mkSet "keycloak-postgresql" (some 1) "postgres:11.5"])
        [ClusterAction.GenericUpdateAction (Ref.statefulSet 0) ""] = some r ∧
      (r.heap 0).Replicas = some 1 ∧
      (r.heap 0).Containers = [{ Image := "quay.io/keycloak/keycloak:9.0.0" }] ∧
      r.heap 1 = mkSet "keycloak-postgresql" (some 1) "postgres:11.5") := by
  refine ⟨?_, ?_⟩
  · have h := Migrate_frame sampleConsts sampleTime postgresqlOverrideCr ⟨none, some 0⟩
      (heapOf [mkSet "keycloak-postgresql" (some 1) "postgres:11.5"])
      [ClusterAction.GenericUpdateAction (Ref.statefulSet 0) ""]
    obtain ⟨r, hr⟩ := h.2 (by decide)
    obtain ⟨hspec, _, himg, hq, _⟩ := h.1 r hr
    have e := himg (by decide) (by decide)
    refine ⟨r, hr, ?_, hspec.2.2.2.2.2, (hq 0).2.2 (by decide)⟩
    have e2 : postgresqlCurrentImage
        (heapOf [mkSet "keycloak-postgresql" (some 1) "postgres:11.5"]) ⟨none, some 0⟩ =
        some "postgres:11.5" := by decide
    rw [e2] at e
    exact (Option.some.inj e).symm
  · have h := Migrate_frame sampleConsts sampleTime keycloakOverrideCr ⟨some 0, some 1⟩
      (heapOf [mkSet "keycloak" (some 5) "quay.io/keycloak/keycloak:9.0.0",
        mkSet "keycloak-postgresql" (some 1) "postgres:11.5"])
      [ClusterAction.GenericUpdateAction (Ref.statefulSet 0) ""]
    obtain ⟨r, hr⟩ := h.2 (by decide)
    obtain ⟨_, _, _, hq, _, hone, _⟩ := h.1 r hr
    exact ⟨r, hr, hone 0 (by decide) (by decide), (hq 0).2.1, (hq 1).2.2 (by decide)⟩

/-! ## C15: frame on the objects of the desired state -/

/-- C15: every result of `Migrate` keeps the given actions as a prefix, keeps
the name and the containers of every object, and differs from the input heap
in a replica count only at the target of the first update action whose `Ref`
is a StatefulSet named `model.KeycloakDeploymentName`, where the count is then
1, and only when the primary workload needs migration; every other object is
unchanged, and nothing is changed when the primary workload needs no
migration, whatever the database does.  `Migrate` returns on every current
state whose present workloads have a first container. -/
theorem Migrate_frame_objects (m : Consts) (now : Time) (cr : Keycloak)
    (cs : ClusterState) (heap : Heap) (ds : DesiredClusterState) :
    (∀ r, Migrate m now cr cs heap ds = some r →
      ds <+: r.desiredState ∧
      (∀ q, (r.heap q).Name = (heap q).Name ∧
        (r.heap q).Containers = (heap q).Containers) ∧
      (∀ q, r.heap q ≠ heap q →
        (r.heap q).Replicas = some 1 ∧ needsMigration m heap cr cs = some true ∧
        ∃ pre msg post,
          ds = pre ++ ClusterAction.GenericUpdateAction (Ref.statefulSet q) msg :: post ∧
          (heap q).Name = m.KeycloakDeploymentName ∧
          ∀ a ∈ pre, targetsDeployment m heap a = false) ∧
      (needsMigration m heap cr cs = some false → r.heap = heap)) ∧
    (wellFormed heap cs = true → ∃ r, Migrate m now cr cs heap ds = some r) := by
  refine ⟨fun r hr => ?_, Migrate_returns_of_wellFormed m now cr cs heap ds⟩
  obtain ⟨hh0, hhq⟩ := Migrate_heap m now cr cs heap ds r hr
  obtain ⟨_, _, hcase⟩ := Migrate_inv m now cr cs heap ds r hr
  refine ⟨?_, fun q => ⟨(hhq q).1, (hhq q).2.1⟩, fun q hne => ?_, hh0⟩
  · rcases hcase with ⟨_, h, _⟩ | ⟨_, _, _, _, h⟩ | ⟨_, _, _, _, _, h⟩
    · rw [h]
    · rw [h]
      exact List.prefix_append ds _
    · rw [h]
      exact List.prefix_append ds _
  · obtain ⟨h1, h2, h3, h4⟩ := hhq q
    have hrep : (r.heap q).Replicas ≠ (heap q).Replicas := by
      intro e
      apply hne
      cases hx : r.heap q
      cases hy : heap q
      rw [hx, hy] at h1 h2 e
      simp only at h1 h2 e
      rw [h1, h2, e]
    obtain ⟨hN, hf, hone⟩ := h4 hrep
    exact ⟨hone, hN, findDeployment_some m heap ds q hf⟩

/-- Two update actions target distinct StatefulSets named `keycloak`, a
third one a StatefulSet of another name: only the first target changes. -/
theorem Migrate_frame_objects_witness :
    ∃ r, Migrate sampleConsts sampleTime emptyCr ⟨some 0, none⟩
        (heapOf [mkSet "keycloak" (some 5) "old_image", mkSet "other" (some 4) "x",
          mkSet "keycloak" (some 3) "y", mkSet "keycloak" (some 2) "z"])
        [ClusterAction.GenericUpdateAction (Ref.statefulSet 1) "",
         ClusterAction.GenericUpdateAction (Ref.statefulSet 2) "",
         ClusterAction.GenericUpdateAction (Ref.statefulSet 3) ""] = some r ∧
      r.heap 1 = mkSet "other" (some 4) "x" ∧ r.heap 3 = mkSet "keycloak" (some 2) "z" ∧
      (r.heap 2).Name = "keycloak" := by
  have h := Migrate_frame_objects sampleConsts sampleTime emptyCr ⟨some 0, none⟩
    (heapOf [mkSet "keycloak" (some 5) "old_image", mkSet "other" (some 4) "x",
      mkSet "keycloak" (some 3) "y", mkSet "keycloak" (some 2) "z"])
    [ClusterAction.GenericUpdateAction (Ref.statefulSet 1) "",
     ClusterAction.GenericUpdateAction (Ref.statefulSet 2) "",
     ClusterAction.GenericUpdateAction (Ref.statefulSet 3) ""]
  obtain ⟨r, hr⟩ := h.2 (by decide)
  obtain ⟨_, hname, hchg, _⟩ := h.1 r hr
  refine ⟨r, hr, ?_, ?_, (hname 2).1⟩
  · by_contra hne
    obtain ⟨_, _, pre, msg, post, _, hn, _⟩ := hchg 1 hne
    exact absurd hn (by decide)
  · by_contra hne
    obtain ⟨_, _, pre, msg, post, e, _, hpre⟩ := hchg 3 hne
    have hmem : ClusterAction.GenericUpdateAction (Ref.statefulSet 2) "" ∈ pre := by
      match pre, e with
      | [], e => simp at e
      | [_], e => simp at e
      | a :: b :: rest, e =>
        simp only [List.cons_append, List.cons.injEq] at e
        rw [← e.2.1]
        simp
    exact absurd (hpre _ hmem) (by decide)

/-! ## C16: pinning and the database detector -/

theorem needsMigration_setPostgresqlOverride (m : Consts) (heap : Heap) (cr : Keycloak)
    (cs : ClusterState) (img : String) :
    needsMigration m heap (setPostgresqlOverride cr img) cs = needsMigration m heap cr cs :=
  rfl

/-- C16 as stated fails for the empty image string: backups are enabled and
the database workload runs the image `""`; the first call pins the override
to `""`, after which `postgresqlNeedsMigration` still answers true on the
mutated spec, and a second call on the result of the first appends a second
pair of backup actions (four actions in all). -/
theorem Migrate_pin_converges_counterexample :
    postgresqlNeedsMigration sampleConsts (heapOf [mkSet "keycloak-postgresql" (some 1) ""])
      backupCr ⟨none, some 0⟩ = some true ∧
    needsMigration sampleConsts (heapOf [mkSet "keycloak-postgresql" (some 1) ""])
      backupCr ⟨none, some 0⟩ = some false ∧
    (Migrate sampleConsts sampleTime backupCr ⟨none, some 0⟩
        (heapOf [mkSet "keycloak-postgresql" (some 1) ""]) []).bind
      (fun r => postgresqlNeedsMigration sampleConsts r.heap r.cr ⟨none, some 0⟩) =
      some true ∧
    ((Migrate sampleConsts sampleTime backupCr ⟨none, some 0⟩
        (heapOf [mkSet "keycloak-postgresql" (some 1) ""]) []).bind
      (fun r => Migrate sampleConsts sampleTimeNext r.cr ⟨none, some 0⟩ r.heap
        r.desiredState)).map (fun r2 => r2.desiredState.length) = some 4 := by
  decide

/-- C16, amended: with backups enabled, if `postgresqlNeedsMigration` is true
before the call and the running database image is not the empty string, then
after `Migrate` has run `postgresqlNeedsMigration` on the mutated spec and the
same current state is false; and when the primary workload needs no
migration, a second call of `Migrate` (at any later clock reading) on the
mutated spec and the result of the first call returns its input unchanged.
`Migrate` returns whenever the primary workload, if present, has a first
container. -/
theorem Migrate_pin_converges (m : Consts) (now now2 : Time) (cr : Keycloak)
    (cs : ClusterState) (heap : Heap) (ds : DesiredClusterState)
    (hE : cr.Spec.Migrations.Backups.Enabled = true)
    (hP : postgresqlNeedsMigration m heap cr cs = some true)
    (hne : postgresqlCurrentImage heap cs ≠ some "") :
    (∀ r, Migrate m now cr cs heap ds = some r →
      postgresqlNeedsMigration m r.heap r.cr cs = some false ∧
      (needsMigration m heap cr cs = some false →
        ∃ r2, Migrate m now2 r.cr cs r.heap r.desiredState = some r2 ∧
          r2.desiredState = r.desiredState ∧ r2.cr = r.cr ∧ r2.heap = r.heap)) ∧
    (hasContainer heap cs.KeycloakDeployment = true →
      ∃ r, Migrate m now cr cs heap ds = some r) := by
  refine ⟨fun r hr => ?_, fun hw => ?_⟩
  · obtain ⟨_, hheap, hcase⟩ := Migrate_inv m now cr cs heap ds r hr
    have hpin : ∃ img, postgresqlCurrentImage heap cs = some img ∧
        r.cr = setPostgresqlOverride cr img := by
      rcases hcase with ⟨_, _, hno⟩ | ⟨_, _, hP2, _⟩ | ⟨_, _, img, hi, hcr, _⟩
      · rcases hno with hno | ⟨_, hP2⟩
        · rw [hE] at hno
          cases hno
        · rw [hP] at hP2
          cases hP2
      · rw [hP] at hP2
        cases hP2
      · exact ⟨img, hi, hcr⟩
    obtain ⟨img, hi, hcr⟩ := hpin
    have himg : img ≠ "" := by
      intro e
      rw [e] at hi
      exact hne hi
    have hcur : postgresqlCurrentImage r.heap cs = some img := by
      rcases hheap with ⟨_, hh⟩ | ⟨_, hh⟩
      · rw [hh, postgresqlCurrentImage_scaledDown]
        exact hi
      · rw [hh]
        exact hi
    have hP2 : postgresqlNeedsMigration m r.heap r.cr cs = some false := by
      rw [postgresqlNeedsMigration_of_image m r.heap r.cr cs img hcur, hcr]
      simp [desiredPostgresqlImage, setPostgresqlOverride, himg]
    refine ⟨hP2, fun hN => ?_⟩
    have hh : r.heap = heap := by
      rcases hheap with ⟨hN2, _⟩ | ⟨_, hh⟩
      · rw [hN] at hN2
        cases hN2
      · exact hh
    have hN2 : needsMigration m r.heap r.cr cs = some false := by
      rw [hh, hcr, needsMigration_setPostgresqlOverride]
      exact hN
    exact ⟨_, Migrate_converged m now2 r.cr cs r.heap r.desiredState hN2 hP2, rfl, rfl, rfl⟩
  · obtain ⟨n, hN⟩ := needsMigration_isSome_of_hasContainer m heap cr cs hw
    cases n with
    | true =>
      obtain ⟨img, log, _, e⟩ := Migrate_primary_pinned m now cr cs heap ds hN hE hP
      exact ⟨_, e⟩
    | false =>
      obtain ⟨img, log, _, e⟩ := Migrate_database_pinned m now cr cs heap ds hN hE hP
      exact ⟨_, e⟩

/-- The scenario of the test with the overridden database image, run twice:
the second call appends nothing. -/
theorem Migrate_pin_converges_witness :
    ∃ r r2, Migrate sampleConsts sampleTime postgresqlOverrideCr ⟨none, some 0⟩
        (heapOf [mkSet "keycloak-postgresql" (some 1) "postgres:11.5"]) [] = some r ∧
      postgresqlNeedsMigration sampleConsts r.heap r.cr ⟨none, some 0⟩ = some false ∧
      Migrate sampleConsts sampleTimeNext r.cr ⟨none, some 0⟩ r.heap r.desiredState =
        some r2 ∧
      r2.desiredState = r.desiredState := by
  have h := Migrate_pin_converges sampleConsts sampleTime sampleTimeNext postgresqlOverrideCr
    ⟨none, some 0⟩ (heapOf [mkSet "keycloak-postgresql" (some 1) "postgres:11.5"]) []
    (by decide) (by decide) (by decide)
  obtain ⟨r, hr⟩ := h.2 (by decide)
  obtain ⟨hP, h2⟩ := h.1 r hr
  obtain ⟨r2, hr2, hds, _⟩ := h2 (by decide)
  exact ⟨r, r2, hr, hP, hr2, hds⟩

end KeycloakMigrations
